import Mathlib

/-!
Verification of the procedural world / collision / clipping core of the
`sound_hell` Backrooms engine (`world.py`, `procedural.py`, `collision.py`,
`camera.py`, `events.py`, with constants from `config.py` and the room-size
helper from `ceiling_heights.py`).

The embedding models Python floats by exact rationals (all float literals
appearing in the decision thresholds of the modelled code are either exactly
representable in binary floating point, or — for 0.3, 0.6, 0.1 — differ from
the rational value by less than the resolution of the 53-bit random draws and
health values they are compared against, so that every comparison in the
modelled code has the same outcome over ℚ as over IEEE doubles on the inputs
exercised here).  Python `//` on integers is `Int.fdiv`, `%` on a positive
modulus is `Int.emod`, and `&` with `0x7fffffff` is reduction mod `2^31`.

`random.Random(seed).random()` is a pure function of the seed; it is embedded
bit-exactly below (MT19937 with CPython's `init_by_array` seeding over the
absolute value of the integer seed, and `genrand_res53` output), so that
concrete counterexamples evaluate the very numbers the program computes.
-/

namespace SoundHell

/-! ## CPython `random.Random` (MT19937), bit-exact

The 624-word generator state is packed into a single natural number,
32 bits per word (word `i` occupies bits `32*i .. 32*i+31`). -/

namespace PyRandom

def U32 : Nat := 4294967296

/-- Read word `i` of the packed state. -/
def mtGet (s i : Nat) : Nat := (s >>> (32 * i)) &&& 4294967295

/-- Write word `i` of the packed state. -/
def mtSet (s i v : Nat) : Nat := s - (mtGet s i) <<< (32 * i) + v <<< (32 * i)

/-- Iterate `f` `fuel` times, forcing the accumulator to a numeral at every
step (`Nat.ble a a` is always `true`; the guard is a semantically transparent
strictness point that keeps kernel reduction shallow). -/
def natIter (f : Nat → Nat) (fuel a : Nat) : Nat :=
  Nat.rec (motive := fun _ => Nat → Nat) (fun x => x)
    (fun _ ih x => let x2 := f x; if Nat.ble x2 x2 then ih x2 else 0) fuel a

theorem natIter_succ (f : Nat → Nat) (fuel a : Nat) :
    natIter f (fuel + 1) a = natIter f fuel (f a) := by
  have h : Nat.ble (f a) (f a) = true := Nat.ble_self_eq_true (f a)
  simp only [natIter, h, if_pos]

/-- One step of the `init_genrand` fill loop, on the packed accumulator
`st * 2^10 + i`: writes `mt[i] = (1812433253 * (mt[i-1] ^ (mt[i-1] >> 30)) + i) mod 2^32`. -/
def igStep (acc : Nat) : Nat :=
  let st := acc >>> 10
  let i := acc &&& 1023
  let prev := mtGet st (i - 1)
  let v := (1812433253 * (prev ^^^ (prev >>> 30)) + i) % U32
  (mtSet st i v) <<< 10 + (i + 1)

def initGenrand (s : Nat) : Nat := (natIter igStep 623 ((s % U32) <<< 10 + 1)) >>> 10

/-- Unsigned 32-bit subtraction `(a - b) mod 2^32` for `b < 2^32`. -/
def wsub (a b : Nat) : Nat := (a % U32 + (U32 - b % U32)) % U32

/-- One step of the first `init_by_array` mixing loop, on the packed
accumulator `st * 2^20 + i * 2^10 + j` (valid for keys of at most 1023
words; integer seeds below `2^64` use at most two). -/
def ibaStep1 (key : List Nat) (klen : Nat) (acc : Nat) : Nat :=
  let st := acc >>> 20
  let i := (acc >>> 10) &&& 1023
  let j := acc &&& 1023
  let prev := mtGet st (i - 1)
  let v := ((mtGet st i ^^^ ((prev ^^^ (prev >>> 30)) * 1664525 % U32)) + key.getD j 0 + j) % U32
  let st := mtSet st i v
  let i := i + 1
  let st := if i ≥ 624 then mtSet st 0 (mtGet st 623) else st
  let i := if i ≥ 624 then 1 else i
  let j := if j + 1 ≥ klen then 0 else j + 1
  st <<< 20 + i <<< 10 + j

/-- One step of the second `init_by_array` mixing loop, on the packed
accumulator `st * 2^10 + i`. -/
def ibaStep2 (acc : Nat) : Nat :=
  let st := acc >>> 10
  let i := acc &&& 1023
  let prev := mtGet st (i - 1)
  let v := wsub (mtGet st i ^^^ ((prev ^^^ (prev >>> 30)) * 1566083941 % U32)) i
  let st := mtSet st i v
  let i := i + 1
  let st := if i ≥ 624 then mtSet st 0 (mtGet st 623) else st
  let i := if i ≥ 624 then 1 else i
  st <<< 10 + i

def initByArray (key : List Nat) : Nat :=
  let klen := key.length
  let st := initGenrand 19650218
  let acc1 := natIter (ibaStep1 key klen) (max 624 klen) (st <<< 20 + 1 <<< 10)
  let acc2 := natIter ibaStep2 623 ((acc1 >>> 20) <<< 10 + (acc1 >>> 10 &&& 1023))
  mtSet (acc2 >>> 10) 0 2147483648

/-- One step of the MT19937 twist, on the packed accumulator `st * 2^10 + kk`. -/
def twStep (acc : Nat) : Nat :=
  let st := acc >>> 10
  let kk := acc &&& 1023
  let y := (mtGet st kk &&& 2147483648) + (mtGet st ((kk + 1) % 624) &&& 2147483647)
  let mag := if y % 2 = 1 then 2567483615 else 0
  let v := mtGet st ((kk + 397) % 624) ^^^ (y >>> 1) ^^^ mag
  (mtSet st kk v) <<< 10 + (kk + 1)

/-- One full MT19937 twist (generates the next 624 words in place). -/
def twist (st : Nat) : Nat := (natIter twStep 624 (st <<< 10)) >>> 10

/-- MT19937 output tempering. -/
def temper (y0 : Nat) : Nat :=
  let y1 := y0 ^^^ (y0 >>> 11)
  let y2 := y1 ^^^ (y1 <<< 7 &&& 2636928640)
  let y3 := y2 ^^^ (y2 <<< 15 &&& 4022730752)
  y3 ^^^ (y3 >>> 18)

/-- Split a natural number into little-endian 32-bit words (CPython key layout);
`0` becomes the single word `[0]`. -/
def natToWordsAux : Nat → Nat → List Nat
  | _, 0 => []
  | n, fuel + 1 => if n = 0 then [] else n % U32 :: natToWordsAux (n / U32) fuel

def natToWords (n : Nat) : List Nat := if n = 0 then [0] else natToWordsAux n 64

/-- Generator state of `random.Random(seed)` after seeding and the first twist
(CPython seeds from the absolute value of an integer seed). -/
def pyRandState (seed : Int) : Nat := twist (initByArray (natToWords seed.natAbs))

/-- The `k`-th value returned by `.random()` on a fresh `random.Random(seed)`:
`genrand_res53` consumes two 32-bit outputs per call.  Valid for `k ≤ 311`
(one twist's worth of words), far beyond the two calls the game ever makes
per generator instance. -/
def pyRand (seed : Int) (k : Nat) : ℚ :=
  let st := pyRandState seed
  let a := temper (mtGet st (2 * k)) >>> 5
  let b := temper (mtGet st (2 * k + 1)) >>> 6
  mkRat ((a * 67108864 + b : Nat) : Int) 9007199254740992

end PyRandom

/-! ## Kernel-computable rational arithmetic

`Rat`'s own arithmetic does not reduce in the kernel, so the embedding uses
these `mkRat`-based operations (each proved equal to the standard one) for
every executable computation. -/

def qmk (n : Int) (d : Nat) : ℚ := mkRat n d

def qadd (a b : ℚ) : ℚ := mkRat (a.num * b.den + b.num * a.den) (a.den * b.den)

def qsub (a b : ℚ) : ℚ := mkRat (a.num * b.den - b.num * a.den) (a.den * b.den)

def qmul (a b : ℚ) : ℚ := mkRat (a.num * b.num) (a.den * b.den)

def qneg (a : ℚ) : ℚ := mkRat (-a.num) a.den

def qinv (a : ℚ) : ℚ := Rat.divInt a.den a.num

def qdiv (a b : ℚ) : ℚ := qmul a (qinv b)

def qleb (a b : ℚ) : Bool := decide (a.num * (b.den : Int) ≤ b.num * (a.den : Int))

def qltb (a b : ℚ) : Bool := decide (a.num * (b.den : Int) < b.num * (a.den : Int))

def qbeq (a b : ℚ) : Bool := decide (a.num = b.num) && decide (a.den = b.den)

def qmax (a b : ℚ) : ℚ := if qltb b a then a else b

def qmin (a b : ℚ) : ℚ := if qltb b a then b else a

def qabs (a : ℚ) : ℚ := if qltb a 0 then qneg a else a

/-- Python `math.floor` / the integer part of `//`. -/
def qfloor (a : ℚ) : Int := Int.fdiv a.num a.den

/-- Python `int()` (truncation toward zero). -/
def qtrunc (a : ℚ) : Int := Int.tdiv a.num a.den

/-- Python `x // y` on numbers, as a rational-valued floor quotient. -/
def qfdiv (a b : ℚ) : Int := qfloor (qdiv a b)

/-- Python `x % y` (`y > 0` in every use below): `x - y * (x // y)`. -/
def qmod (a b : ℚ) : ℚ := qsub a (qmul b (qmk (qfdiv a b) 1))

theorem qmk_eq (n : Int) (d : Nat) : qmk n d = (n : ℚ) / (d : ℚ) :=
  Rat.mkRat_eq_div n d

theorem qadd_eq (a b : ℚ) : qadd a b = a + b := (Rat.add_def' a b).symm

theorem qsub_eq (a b : ℚ) : qsub a b = a - b := (Rat.sub_def' a b).symm

theorem qmul_eq (a b : ℚ) : qmul a b = a * b := by
  rw [qmul, Rat.mkRat_eq_divInt]
  push_cast
  rw [← Rat.divInt_mul_divInt' a.num (a.den : Int) b.num (b.den : Int),
    Rat.num_divInt_den, Rat.num_divInt_den]

theorem qneg_eq (a : ℚ) : qneg a = -a := by
  rw [qneg, Rat.mkRat_eq_divInt, ← Rat.neg_divInt, Rat.num_divInt_den]

theorem qinv_eq (a : ℚ) : qinv a = a⁻¹ := (Rat.inv_def' a).symm

theorem qdiv_eq (a b : ℚ) : qdiv a b = a / b := by
  rw [qdiv, qmul_eq, qinv_eq, div_eq_mul_inv]

theorem qleb_iff (a b : ℚ) : qleb a b = true ↔ a ≤ b := by
  have ha : (0 : ℚ) < (a.den : ℚ) := by exact_mod_cast a.pos
  have hb : (0 : ℚ) < (b.den : ℚ) := by exact_mod_cast b.pos
  rw [qleb, decide_eq_true_eq]
  constructor
  · intro h
    have h2 : (a.num : ℚ) * (b.den : ℚ) ≤ (b.num : ℚ) * (a.den : ℚ) := by exact_mod_cast h
    have h3 := (div_le_div_iff ha hb).2 h2
    rwa [Rat.num_div_den, Rat.num_div_den] at h3
  · intro h
    have h3 : (a.num : ℚ) / (a.den : ℚ) ≤ (b.num : ℚ) / (b.den : ℚ) := by
      rwa [Rat.num_div_den, Rat.num_div_den]
    exact_mod_cast (div_le_div_iff ha hb).1 h3

theorem qltb_iff (a b : ℚ) : qltb a b = true ↔ a < b := by
  have ha : (0 : ℚ) < (a.den : ℚ) := by exact_mod_cast a.pos
  have hb : (0 : ℚ) < (b.den : ℚ) := by exact_mod_cast b.pos
  rw [qltb, decide_eq_true_eq]
  constructor
  · intro h
    have h2 : (a.num : ℚ) * (b.den : ℚ) < (b.num : ℚ) * (a.den : ℚ) := by exact_mod_cast h
    have h3 := (div_lt_div_iff ha hb).2 h2
    rwa [Rat.num_div_den, Rat.num_div_den] at h3
  · intro h
    have h3 : (a.num : ℚ) / (a.den : ℚ) < (b.num : ℚ) / (b.den : ℚ) := by
      rwa [Rat.num_div_den, Rat.num_div_den]
    exact_mod_cast (div_lt_div_iff ha hb).1 h3

theorem qltb_eq_decide (a b : ℚ) : qltb a b = decide (a < b) := by
  by_cases h : a < b
  · simp [h, (qltb_iff a b).2 h]
  · simp only [h, decide_False]
    by_contra hh
    exact h ((qltb_iff a b).1 (by revert hh; cases qltb a b <;> simp))

theorem qleb_eq_decide (a b : ℚ) : qleb a b = decide (a ≤ b) := by
  by_cases h : a ≤ b
  · simp [h, (qleb_iff a b).2 h]
  · simp only [h, decide_False]
    by_contra hh
    exact h ((qleb_iff a b).1 (by revert hh; cases qleb a b <;> simp))

theorem qbeq_iff (a b : ℚ) : qbeq a b = true ↔ a = b := by
  rw [qbeq]
  constructor
  · intro h
    simp only [Bool.and_eq_true, decide_eq_true_eq] at h
    exact Rat.ext h.1 h.2
  · intro h; subst h; simp

theorem qmax_eq (a b : ℚ) : qmax a b = max a b := by
  rw [qmax, qltb_eq_decide, max_def]
  simp only [decide_eq_true_eq]
  rcases lt_or_le b a with h | h
  · rw [if_pos h, if_neg (not_le.2 h)]
  · rw [if_neg (not_lt.2 h), if_pos h]

theorem qmin_eq (a b : ℚ) : qmin a b = min a b := by
  rw [qmin, qltb_eq_decide, min_def]
  simp only [decide_eq_true_eq]
  rcases lt_or_le b a with h | h
  · rw [if_pos h, if_neg (not_le.2 h)]
  · rw [if_neg (not_lt.2 h), if_pos h]

theorem qabs_eq (a : ℚ) : qabs a = |a| := by
  rw [qabs, qltb_eq_decide, qneg_eq]
  simp only [decide_eq_true_eq]
  rcases lt_or_le a 0 with h | h
  · rw [if_pos h, abs_of_neg h]
  · rw [if_neg (not_lt.2 h), abs_of_nonneg h]

theorem qfloor_eq (a : ℚ) : qfloor a = ⌊a⌋ := by
  rw [qfloor, Rat.floor_def, Int.fdiv_eq_ediv _ (by exact_mod_cast Nat.zero_le a.den)]

/-- Python `abs` on an integer. -/
def pyAbsInt (m : Int) : Int := Int.ofNat m.natAbs

/-- Python `max` on two integers (returns the second argument only if it is
strictly larger, which is indistinguishable from any other tie-breaking). -/
def pyMaxInt (a b : Int) : Int := if a < b then b else a

/-! ## Constants from `config.py` -/

def PILLAR_SPACING : Int := 400

def HALLWAY_WIDTH : ℚ := 100

def PILLAR_SIZE : ℚ := 80

def WALL_THICKNESS : ℚ := 20

def ZONE_SIZE : Int := 10000

def PILLAR_MODE : String := "normal"

def NEAR : ℚ := 1

/-- `WALL_HEIGHT * CEILING_HEIGHT_MULTIPLIER` with multiplier 1. -/
def scaledWallHeight : ℚ := 400

/-- `-2 * CEILING_HEIGHT_MULTIPLIER`. -/
def scaledFloorY : ℚ := -2

/-! ## `procedural.py`: zone archetypes -/

/-- The twelve archetype names, in `ZONE_TYPES` dict insertion order
(Python 3.7+ dicts preserve insertion order, and `get_zone_type` indexes
`list(ZONE_TYPES.keys())`).  `openZ` stands for the `'open'` archetype. -/
inductive ZoneType
  | normal | dense | sparse | maze | openZ | atrium | coliseum
  | courtyard | skyscraperBase | grandHall | cathedral | warehouse
deriving DecidableEq

def zoneTypeList : List ZoneType :=
  [.normal, .dense, .sparse, .maze, .openZ, .atrium, .coliseum,
   .courtyard, .skyscraperBase, .grandHall, .cathedral, .warehouse]

/-- The archetype record of `ProceduralZone.ZONE_TYPES`, plus the
`decay_chance` and `zone_type` entries that `get_zone_properties` adds.
Decimal literals are written as exact rationals (see the header note). -/
structure ZoneProps where
  pillarDensity : ℚ
  wallChance : ℚ
  ceilingHeightVar : ℚ
  colorTint : ℚ × ℚ × ℚ
  scaleMultiplier : ℚ
  roomSize : Int
  minCeiling : ℚ
  maxCeiling : ℚ
  decayChance : ℚ
  ztype : ZoneType
deriving DecidableEq

/-- `ZONE_TYPES[t]`, with `decay_chance` defaulted to `0` (it is filled in by
`getZoneProperties`, mirroring how the Python code adds the key afterwards). -/
def zoneArchetype : ZoneType → ZoneProps
  | .normal => ⟨qmk 7 20, qmk 1 4, 8, (1, 1, 1), 1, 400, 100, 120, 0, .normal⟩
  | .dense => ⟨qmk 11 20, qmk 2 5, 5, (qmk 19 20, qmk 19 20, qmk 17 20), 1, 400, 95, 110, 0, .dense⟩
  | .sparse => ⟨qmk 3 20, qmk 1 10, 18, (qmk 21 20, qmk 21 20, qmk 23 20), 1, 400, 100, 140, 0, .sparse⟩
  | .maze => ⟨qmk 7 10, qmk 3 5, 3, (qmk 9 10, qmk 9 10, qmk 4 5), 1, 400, 90, 100, 0, .maze⟩
  | .openZ => ⟨qmk 2 25, qmk 1 20, 30, (qmk 11 10, qmk 11 10, qmk 6 5), qmk 3 2, 600, 100, 160, 0, .openZ⟩
  | .atrium => ⟨qmk 1 20, qmk 1 50, 100, (qmk 21 20, qmk 21 20, qmk 23 20), 6, 2400, 300, 500, 0, .atrium⟩
  | .coliseum => ⟨0, 0, 200, (qmk 11 10, qmk 11 10, qmk 5 4), 10, 4000, 400, 800, 0, .coliseum⟩
  | .courtyard => ⟨qmk 3 100, qmk 1 20, 150, (qmk 6 5, qmk 6 5, qmk 13 10), 8, 3200, 350, 600, 0, .courtyard⟩
  | .skyscraperBase => ⟨qmk 1 4, qmk 3 20, 80, (qmk 19 20, qmk 19 20, qmk 21 20), 5, 2000, 250, 400, 0, .skyscraperBase⟩
  | .grandHall => ⟨qmk 1 10, qmk 2 25, 120, (1, 1, qmk 11 10), 7, 2800, 300, 500, 0, .grandHall⟩
  | .cathedral => ⟨qmk 3 20, qmk 1 10, 180, (qmk 21 20, qmk 21 20, qmk 23 20), 9, 3600, 450, 700, 0, .cathedral⟩
  | .warehouse => ⟨qmk 1 5, qmk 1 20, 60, (qmk 19 20, qmk 19 20, qmk 9 10), 4, 1600, 180, 280, 0, .warehouse⟩

/-- The `decay_chances` table inside `get_zone_properties`. -/
def decayChanceOf : ZoneType → ℚ
  | .normal => qmk 1 5
  | .dense => qmk 1 5
  | .sparse => qmk 1 5
  | .maze => qmk 1 5
  | .openZ => qmk 3 20
  | .atrium => qmk 1 20
  | .coliseum => qmk 1 50
  | .courtyard => qmk 1 20
  | .skyscraperBase => qmk 1 10
  | .grandHall => qmk 2 25
  | .cathedral => qmk 1 20
  | .warehouse => qmk 3 25

/-- `ProceduralZone.get_zone_type`: hash the zone coordinates and seed, mask
to 31 bits (`& 0x7fffffff` is reduction mod `2^31` on arbitrary Python ints),
and index the ordered archetype list. -/
def getZoneType (zoneX zoneZ seed : Int) : ZoneType :=
  let hashVal := (zoneX * 73856093 + zoneZ * 19349663 + seed * 83492791).emod 2147483648
  zoneTypeList.getD (hashVal.toNat % 12) .normal

/-- `ProceduralZone.get_zone_properties` (pure part): archetype fields plus
`decay_chance` and `zone_type`. -/
def getZonePropertiesPure (zoneX zoneZ seed : Int) : ZoneProps :=
  let t := getZoneType zoneX zoneZ seed
  { zoneArchetype t with decayChance := decayChanceOf t, ztype := t }

/-! ## `world.py`: state, zone/pillar/wall queries -/

/-- `WallState` damage states. -/
inductive WallState
  | INTACT | CRACKED | FRACTURED | BREAKING | DESTROYED
deriving DecidableEq

/-- Event types of `events.py` that the modelled code emits (the payloads —
position, health — are carried by the Python events but only the type and
multiplicity of emissions are claim-relevant; emissions are modelled as an
append-only log in the world state standing for the global `event_bus`). -/
inductive EventTy
  | WALL_HIT | WALL_CRACKED | WALL_FRACTURED | WALL_BREAKING | WALL_DESTROYED
  | PILLAR_DESTROYED
deriving DecidableEq

abbrev GridPoint := Int × Int

abbrev WKey := GridPoint × GridPoint

/-- Python set insertion (`set.add`). -/
def sinsertW (k : WKey) (l : List WKey) : List WKey := if k ∈ l then l else k :: l

def sinsertP (k : GridPoint) (l : List GridPoint) : List GridPoint :=
  if k ∈ l then l else k :: l

/-- The mutable state of a `World` instance, restricted to the fields the
modelled methods read or write.  Python dicts are total functions into
`Option`, Python sets are duplicate-free lists, `debris_pieces` is modelled
by its length (debris contents are draws from the unseeded module-level RNG
and are not claim-relevant), `wall_cracks` lists by their lengths likewise,
and `event_bus.emit` appends to `eventLog`. -/
structure WorldState where
  worldSeed : Int
  pillarCache : GridPoint → Option Bool
  wallCache : WKey → Option Bool
  zoneCache : GridPoint → Option ZoneProps
  destroyedWalls : List WKey
  destroyedPillars : List GridPoint
  preDamagedWalls : WKey → Option ℚ
  wallStates : WKey → Option WallState
  wallHealth : WKey → Option ℚ
  wallCracks : WKey → Nat
  debrisCount : Nat
  eventLog : List EventTy

/-- A fresh `World(world_seed)`. -/
def World.init (seed : Int) : WorldState :=
  ⟨seed, fun _ => none, fun _ => none, fun _ => none, [], [],
   fun _ => none, fun _ => none, fun _ => none, fun _ => 0, 0, []⟩

/-- `World.get_zone_at`: `(int(x // ZONE_SIZE), int(z // ZONE_SIZE))`. -/
def getZoneAt (x z : ℚ) : GridPoint := (qfdiv x (qmk ZONE_SIZE 1), qfdiv z (qmk ZONE_SIZE 1))

/-- `World.get_zone_properties` (memoized). -/
def World.getZoneProperties (s : WorldState) (zoneX zoneZ : Int) : ZoneProps × WorldState :=
  match s.zoneCache (zoneX, zoneZ) with
  | some p => (p, s)
  | none =>
    let p := getZonePropertiesPure zoneX zoneZ s.worldSeed
    (p, { s with zoneCache := fun k => if k = (zoneX, zoneZ) then some p else s.zoneCache k })

/-- `ceiling_heights.get_room_size_at_position`. -/
def getRoomSizeAtPosition (x z : ℚ) (s : WorldState) : Int × WorldState :=
  let zc := getZoneAt x z
  let (props, s) := World.getZoneProperties s zc.1 zc.2
  (props.roomSize, s)

/-- CPython `hash` of an `int` (modulus `2^61 - 1`, sign preserved,
`-1` mapped to `-2`). -/
def pyHashInt (n : Int) : Int :=
  let m : Int := 2305843009213693951
  let h : Int := (Int.ofNat n.natAbs).emod m
  let r : Int := if n < 0 then -h else h
  if r = -1 then -2 else r

def rotl64 (x n : Nat) : Nat := ((x <<< n) % 18446744073709551616) + (x >>> (64 - n))

/-- CPython `hash((a, b, c))` for integers `a b c` (the xxHash-based tuple
hash of CPython ≥ 3.8 on a 64-bit platform). -/
def pyTupleHash3 (a b c : Int) : Int :=
  let m64 : Nat := 18446744073709551616
  let lane : Int → Nat := fun h => (h.emod 18446744073709551616).toNat
  let step : Nat → Int → Nat := fun acc h =>
    rotl64 ((acc + lane h * 14029467366897019727) % m64) 31 * 11400714785074694791 % m64
  let acc := step (step (step 2870177450012600261 a) b) c
  let acc := (acc + (3 ^^^ (2870177450012600261 ^^^ 3527539))) % m64
  if acc = m64 - 1 then 1546275796
  else if acc < 9223372036854775808 then (acc : Int) else (acc : Int) - 18446744073709551616

/-- The `probability_map` of `has_pillar_at`, as `dict.get(mode, 0.0)`. -/
def pillarProbability (mode : String) : ℚ :=
  if mode = "sparse" then qmk 1 10
  else if mode = "normal" then qmk 3 10
  else if mode = "dense" then qmk 3 5
  else 0

/-- Write-and-return of the pillar memoization cache. -/
def pillarCacheWrite (key : GridPoint) (b : Bool) (s : WorldState) : Bool × WorldState :=
  (b, { s with pillarCache := fun k => if k = key then some b else s.pillarCache k })

/-- The hashed Bernoulli trial of `has_pillar_at`. -/
def pillarRoll (px pz seed : Int) : Bool :=
  qltb (PyRandom.pyRand ((pyTupleHash3 px pz seed).emod 100000) 0)
    (pillarProbability PILLAR_MODE)

/-- `World.has_pillar_at` (memoized; the call sites in the modelled code pass
grid-aligned integers, so the coordinates are `Int`). -/
def World.hasPillarAt (s : WorldState) (px pz : Int) : Bool × WorldState :=
  let key := (px, pz)
  match s.pillarCache key with
  | some b => (b, s)
  | none =>
    if PILLAR_MODE = "none" then pillarCacheWrite key false s
    else
      let offset := Int.fdiv PILLAR_SPACING 2
      if ¬(px.emod PILLAR_SPACING = offset ∧ pz.emod PILLAR_SPACING = offset) then
        pillarCacheWrite key false s
      else if PILLAR_MODE = "all" then pillarCacheWrite key true s
      else pillarCacheWrite key (pillarRoll px pz s.worldSeed) s

/-- `World.is_pillar_destroyed`. -/
def World.isPillarDestroyed (s : WorldState) (k : GridPoint) : Bool := k ∈ s.destroyedPillars

/-- Doorway kinds; `get_doorway_type` returns `"hallway"`, `"doorway"` or
`None`, modelled as `Option DoorwayKind`. -/
inductive DoorwayKind
  | hallway | doorway
deriving DecidableEq

/-- `World.get_doorway_type` — a pure, stateless function of the endpoints
and the world seed (Python `//` on ints is `Int.fdiv`). -/
def getDoorwayType (seed : Int) (x1 z1 x2 z2 : Int) : Option DoorwayKind :=
  let isHorizontal := z1 = z2
  let doorSeed :=
    if isHorizontal then z1 * 3571 + (Int.fdiv (x1 + x2) 2) * 2897 + seed * 9973
    else x1 * 3571 + (Int.fdiv (z1 + z2) 2) * 2897 + seed * 9973
  let roll := PyRandom.pyRand doorSeed 0
  if qltb roll (qmk 3 10) then some .hallway
  else if qltb roll (qmk 1 2) then some .doorway
  else none

/-- Python tuple comparison `(x1, z1) <= (x2, z2)` (lexicographic). -/
def tupLe (a b : GridPoint) : Bool := a.1 < b.1 ∨ (a.1 = b.1 ∧ a.2 ≤ b.2)

/-- `tuple(sorted([(x1, z1), (x2, z2)]))` — the canonical wall key. -/
def sortKey (x1 z1 x2 z2 : Int) : WKey :=
  if tupLe (x1, z1) (x2, z2) then ((x1, z1), (x2, z2)) else ((x2, z2), (x1, z1))

/-- Write-and-return of the wall memoization cache. -/
def wallCacheWrite (key : WKey) (b : Bool) (s : WorldState) : Bool × WorldState :=
  (b, { s with wallCache := fun k => if k = key then some b else s.wallCache k })

/-- The zone-grid alignment and span validation of `has_wall_between`, for a
pair already known axis-aligned (`z1 % room_size` is Python int `%`,
`Int.emod`; the tolerance is 1.0). -/
def wallGeomOk (roomSize x1 z1 x2 z2 : Int) : Bool :=
  if z1 = z2 then
    if ¬(pyAbsInt (z1.emod roomSize) < 1 ∨ pyAbsInt (z1.emod roomSize - roomSize) < 1) then
      false
    else ¬(pyAbsInt (pyAbsInt (x2 - x1) - roomSize) > 1)
  else
    if ¬(pyAbsInt (x1.emod roomSize) < 1 ∨ pyAbsInt (x1.emod roomSize - roomSize) < 1) then
      false
    else ¬(pyAbsInt (pyAbsInt (z2 - z1) - roomSize) > 1)

/-- The first-query decay block of `has_wall_between`: one deterministic
roll per key; on decay, record pre-existing damage `0.5 * uniform`, and add
the key to the destroyed set when the damage is below 0.2. -/
def wallDecayStep (s : WorldState) (key : WKey) (x1 z1 x2 z2 : Int) : WorldState :=
  if s.preDamagedWalls key = none then
    let zc := getZoneAt (qmk (x1 + x2) 2) (qmk (z1 + z2) 2)
    let pP := World.getZoneProperties s zc.1 zc.2
    let decaySeed := x1 * 7919 + z1 * 6577 + x2 * 4993 + z2 * 3571 + pP.2.worldSeed * 9973
    if qltb (PyRandom.pyRand decaySeed 0) pP.1.decayChance then
      let damage := qmul (qmk 1 2) (PyRandom.pyRand decaySeed 1)
      let s2 := { pP.2 with
        preDamagedWalls := fun k => if k = key then some damage else pP.2.preDamagedWalls k }
      if qltb damage (qmk 1 5) then
        { s2 with destroyedWalls := sinsertW key s2.destroyedWalls }
      else s2
    else pP.2
  else s

/-- `World.has_wall_between` — the zone-aware wall-existence query, with its
memoization and its first-query decay side effects.  The call sites in the
modelled code pass grid integers, so the endpoints are `Int`; the wall center
`(x1+x2)/2` is an exact rational.  The room size is queried (with its zone
cache side effect) before any validation, exactly as in the source. -/
def World.hasWallBetween (s : WorldState) (x1 z1 x2 z2 : Int) : Bool × WorldState :=
  let key := sortKey x1 z1 x2 z2
  match s.wallCache key with
  | some b => (b, s)
  | none =>
    let rsP := getRoomSizeAtPosition (qmk (x1 + x2) 2) (qmk (z1 + z2) 2) s
    if ¬(z1 = z2 ∨ x1 = x2) then wallCacheWrite key false rsP.2
    else if ¬wallGeomOk rsP.1 x1 z1 x2 z2 then wallCacheWrite key false rsP.2
    else wallCacheWrite key true (wallDecayStep rsP.2 key x1 z1 x2 z2)

/-- `World.is_wall_destroyed`. -/
def World.isWallDestroyed (s : WorldState) (k : WKey) : Bool := k ∈ s.destroyedWalls

/-- `World.get_wall_state`. -/
def World.getWallState (s : WorldState) (k : WKey) : WallState :=
  if k ∈ s.destroyedWalls then .DESTROYED else (s.wallStates k).getD .INTACT

/-- `World.get_wall_health`. -/
def World.getWallHealth (s : WorldState) (k : WKey) : ℚ :=
  if k ∈ s.destroyedWalls then 0 else (s.wallHealth k).getD 1

/-- `World.get_wall_cracks`, reduced to the length of the crack list (crack
contents are draws from the unseeded module RNG). -/
def World.getWallCracksCount (s : WorldState) (k : WKey) : Nat := s.wallCracks k

/-- `World.get_wall_damage` (pre-existing decay value, 1.0 when absent). -/
def World.getWallDamage (s : WorldState) (k : WKey) : ℚ := (s.preDamagedWalls k).getD 1

/-- `World._get_wall_center` — the world-space center carried by wall event
payloads. -/
def wallCenter (k : WKey) : ℚ × ℚ × ℚ :=
  (qmk (k.1.1 + k.2.1) 2, qdiv (qadd scaledFloorY scaledWallHeight) 2, qmk (k.1.2 + k.2.2) 2)

/-- `World._add_crack`: appends one crack record (random contents) to the
wall's crack list. -/
def addCrack (s : WorldState) (k : WKey) : WorldState :=
  { s with wallCracks := fun k2 => if k2 = k then s.wallCracks k + 1 else s.wallCracks k2 }

/-- `World._spawn_impact_debris`: appends `count` debris particles. -/
def spawnImpactDebris (s : WorldState) (count : Nat) : WorldState :=
  { s with debrisCount := s.debrisCount + count }

/-- `event_bus.emit`: the global bus delivers synchronously; modelled as an
append to the emission log. -/
def emitEvent (s : WorldState) (e : EventTy) : WorldState :=
  { s with eventLog := s.eventLog ++ [e] }

/-- The debris-burst size of `_destroy_wall_internal` / `destroy_pillar`:
`max(250, int(1200 * (1.0 / (1.0 + n / 20))))` where `n` is the size of the
relevant destroyed set after insertion (`int()` truncates; the value is
positive, and the exact-rational value can differ from the float one only by
1 on near-integer boundaries, which no claim below depends on — every claim
uses only `≥ 250`). -/
def burstSize (n : Nat) : Nat :=
  (pyMaxInt 250 (qtrunc (qmul 1200 (qdiv 1 (qadd 1 (qdiv (qmk n 1) 20)))))).toNat

/-- `World._destroy_wall_internal`: add to the destroyed set, force state and
health, and spawn the full debris burst. -/
def destroyWallInternal (s : WorldState) (k : WKey) : WorldState :=
  let s := { s with destroyedWalls := sinsertW k s.destroyedWalls }
  let s := { s with wallStates := fun k2 => if k2 = k then some .DESTROYED else s.wallStates k2 }
  let s := { s with wallHealth := fun k2 => if k2 = k then some 0 else s.wallHealth k2 }
  { s with debrisCount := s.debrisCount + burstSize s.destroyedWalls.length }

/-- The threshold mapping from health to state inside `hit_wall`. -/
def thresholdState (h : ℚ) : WallState :=
  if qleb h 0 then .DESTROYED
  else if qleb h (qmk 1 4) then .FRACTURED
  else if qleb h (qmk 3 5) then .CRACKED
  else .INTACT

/-- `World.hit_wall`.  Returns the Python return value (`True` iff this call
destroyed the wall) with the updated state.  `hit_uv` only influences crack
record contents, which are modelled by count, so it is not a parameter.
The direct index `self.wall_states[wall_key]` is modelled as a lookup with
`INTACT` default: the two dicts are always written together, so the default
is never consulted on states the program can reach. -/
def World.hitWall (s : WorldState) (k : WKey) (damage : ℚ) : Bool × WorldState :=
  if k ∈ s.destroyedWalls then (false, s)
  else
    let s :=
      if s.wallHealth k = none then
        let s := { s with wallHealth := fun k2 => if k2 = k then some 1 else s.wallHealth k2 }
        { s with wallStates := fun k2 => if k2 = k then some .INTACT else s.wallStates k2 }
      else s
    let oldState := (s.wallStates k).getD .INTACT
    let oldHealth := (s.wallHealth k).getD 1
    let newHealth := qmax 0 (qsub oldHealth damage)
    let s := { s with wallHealth := fun k2 => if k2 = k then some newHealth else s.wallHealth k2 }
    let newState := thresholdState newHealth
    let s := { s with wallStates := fun k2 => if k2 = k then some newState else s.wallStates k2 }
    let s :=
      if newState = .CRACKED ∨ newState = .FRACTURED then
        let s := addCrack s k
        if newState = .FRACTURED then addCrack (addCrack s k) k else s
      else s
    if newState ≠ oldState then
      match newState with
      | .CRACKED => (false, emitEvent (spawnImpactDebris s 30) .WALL_CRACKED)
      | .FRACTURED => (false, emitEvent (spawnImpactDebris s 60) .WALL_FRACTURED)
      | .DESTROYED => (true, emitEvent (destroyWallInternal s k) .WALL_DESTROYED)
      | _ => (false, s)
    else if oldState ≠ .INTACT then
      (false, emitEvent (spawnImpactDebris s 20) .WALL_HIT)
    else (false, s)

/-- `World.destroy_wall` (called without a destroy sound, as the sound only
plays audio). -/
def World.destroyWall (s : WorldState) (k : WKey) : WorldState :=
  if k ∈ s.destroyedWalls then s
  else emitEvent (destroyWallInternal s k) .WALL_DESTROYED

/-- `World.destroy_pillar`. -/
def World.destroyPillar (s : WorldState) (k : GridPoint) : WorldState :=
  if k ∈ s.destroyedPillars then s
  else
    let s := { s with destroyedPillars := sinsertP k s.destroyedPillars }
    let s := { s with debrisCount := s.debrisCount + burstSize s.destroyedPillars.length }
    emitEvent s .PILLAR_DESTROYED

/-! ## `World.check_collision` and its non-finite guard -/

/-- A Python float as far as `math.isfinite` can distinguish: a finite value
(idealized as an exact rational) or one of the non-finite values. -/
inductive PFloat
  | fin (q : ℚ)
  | posInf
  | negInf
  | nan
deriving DecidableEq

def PFloat.isFinite : PFloat → Bool
  | .fin _ => true
  | _ => false

def PFloat.toRat : PFloat → ℚ
  | .fin q => q
  | _ => 0

/-- Python `range(lo, hi + 400, 400)` for `lo ≤ hi` both multiples of 400 —
the grid-cell enumeration used by both collision queries. -/
def pyRange400 (lo hi : Int) : List Int :=
  (List.range ((hi - lo).toNat / 400 + 1)).map (fun i => lo + 400 * i)

/-- `int((c - range) // PILLAR_SPACING) * PILLAR_SPACING`. -/
def gridFloor (c range : ℚ) : Int := qfdiv (qsub c range) (qmk PILLAR_SPACING 1) * PILLAR_SPACING

/-- `int((c + range) // PILLAR_SPACING) * PILLAR_SPACING`. -/
def gridCeil (c range : ℚ) : Int := qfdiv (qadd c range) (qmk PILLAR_SPACING 1) * PILLAR_SPACING

/-- The nested `for px_grid … for pz_grid …` enumeration order. -/
def cellList (xlo xhi zlo zhi : Int) : List GridPoint :=
  (pyRange400 xlo xhi).flatMap (fun a => (pyRange400 zlo zhi).map (fun b => (a, b)))

/-- The horizontal-wall point test of one `check_collision` cell (the wall
along X at `z = pz` from `px` to `px + PILLAR_SPACING`), given that the wall
exists and is not destroyed.  `player_radius = 15`, `half_thick = 10`. -/
def ccHorizHit (x z : ℚ) (px pz : Int) (ot : Option DoorwayKind) : Bool :=
  let wallZ := qmk pz 1
  let xs := qmk px 1
  let xe := qmk (px + PILLAR_SPACING) 1
  let ow : ℚ := match ot with
    | some .hallway => HALLWAY_WIDTH
    | some .doorway => 60
    | none => 0
  if qltb 0 ow then
    let os := qadd xs (qdiv (qsub (qmk PILLAR_SPACING 1) ow) 2)
    let oe := qadd os ow
    if qltb (qabs (qsub z wallZ)) (qadd (qdiv WALL_THICKNESS 2) 15) then
      (qleb xs x && qleb x (qsub os 15)) || (qleb (qadd oe 15) x && qleb x xe)
    else false
  else
    qleb (qsub xs 15) x && qleb x (qadd xe 15) &&
      qltb (qabs (qsub z wallZ)) (qadd (qdiv WALL_THICKNESS 2) 15)

/-- The vertical-wall point test of one `check_collision` cell. -/
def ccVertHit (x z : ℚ) (px pz : Int) (ot : Option DoorwayKind) : Bool :=
  let wallX := qmk px 1
  let zs := qmk pz 1
  let ze := qmk (pz + PILLAR_SPACING) 1
  let ow : ℚ := match ot with
    | some .hallway => HALLWAY_WIDTH
    | some .doorway => 60
    | none => 0
  if qltb 0 ow then
    let os := qadd zs (qdiv (qsub (qmk PILLAR_SPACING 1) ow) 2)
    let oe := qadd os ow
    if qltb (qabs (qsub x wallX)) (qadd (qdiv WALL_THICKNESS 2) 15) then
      (qleb zs z && qleb z (qsub os 15)) || (qleb (qadd oe 15) z && qleb z ze)
    else false
  else
    qleb (qsub zs 15) z && qleb z (qadd ze 15) &&
      qltb (qabs (qsub x wallX)) (qadd (qdiv WALL_THICKNESS 2) 15)

/-- The pillar box-vs-circle test of one `check_collision` cell, given the
pillar exists and is not destroyed. -/
def ccPillarHit (x z : ℚ) (pillarX pillarZ : Int) : Bool :=
  let minX := qmk pillarX 1
  let maxX := qadd minX PILLAR_SIZE
  let minZ := qmk pillarZ 1
  let maxZ := qadd minZ PILLAR_SIZE
  let closestX := qmax minX (qmin x maxX)
  let closestZ := qmax minZ (qmin z maxZ)
  let dx := qsub x closestX
  let dz := qsub z closestZ
  qltb (qadd (qmul dx dx) (qmul dz dz)) (qmk 225 1)

/-- One cell body of the `check_collision` double loop (early-`return True`
semantics: a hit stops all further work). -/
def ccCell (s : WorldState) (x z : ℚ) (c : GridPoint) : Bool × WorldState :=
  let px := c.1
  let pz := c.2
  let hw := World.hasWallBetween s px pz (px + PILLAR_SPACING) pz
  let s := hw.2
  let hkey := sortKey px pz (px + PILLAR_SPACING) pz
  let hit1 : Bool :=
    hw.1 && !(decide (hkey ∈ s.destroyedWalls)) &&
      ccHorizHit x z px pz (getDoorwayType s.worldSeed px pz (px + PILLAR_SPACING) pz)
  if hit1 then (true, s)
  else
    let vw := World.hasWallBetween s px pz px (pz + PILLAR_SPACING)
    let s := vw.2
    let vkey := sortKey px pz px (pz + PILLAR_SPACING)
    let hit2 : Bool :=
      vw.1 && !(decide (vkey ∈ s.destroyedWalls)) &&
        ccVertHit x z px pz (getDoorwayType s.worldSeed px pz px (pz + PILLAR_SPACING))
    if hit2 then (true, s)
    else
      let offset := Int.fdiv PILLAR_SPACING 2
      let pk : GridPoint := (px + offset, pz + offset)
      let hp := World.hasPillarAt s pk.1 pk.2
      let s := hp.2
      let hit3 : Bool :=
        hp.1 && !(decide (pk ∈ s.destroyedPillars)) && ccPillarHit x z pk.1 pk.2
      (hit3, s)

def ccCells (x z : ℚ) : WorldState → List GridPoint → Bool × WorldState
  | s, [] => (false, s)
  | s, c :: rest =>
    match ccCell s x z c with
    | (true, s) => (true, s)
    | (false, s) => ccCells x z s rest

/-- `World.check_collision`: non-finite coordinates collide unconditionally
(the guard precedes all other work, so the function is total and
exception-free); finite coordinates run the room-size-scaled cell scan. -/
def World.checkCollision (s : WorldState) (x z : PFloat) : Bool × WorldState :=
  if ¬(x.isFinite && z.isFinite) then (true, s)
  else
    let xq := x.toRat
    let zq := z.toRat
    let rsP := getRoomSizeAtPosition xq zq s
    let s := rsP.2
    let checkRange := qmk (rsP.1 * 2) 1
    ccCells xq zq s
      (cellList (gridFloor xq checkRange) (gridCeil xq checkRange)
        (gridFloor zq checkRange) (gridCeil zq checkRange))

/-! ## `collision.py`: the sliding circle-vs-segment solver

`CollisionSystem` is constructed with `player_radius = 15` and
`skin_width = 0.5`; those values are inlined.  Every comparison the Python
code makes against a `math.sqrt` value is encoded by the equivalent
comparison of squares (exact over the idealized reals); the square root is
needed as a *value* only inside push-vector computations, where it enters
through the explicit parameter `sq : ℚ → ℚ` standing for float `sqrt` of a
squared distance.  Theorems about code paths that never push hold for every
`sq`. -/

/-- A wall or pillar segment `(x1, z1, x2, z2)`. -/
abbrev Seg := ℚ × ℚ × ℚ × ℚ

/-- Segments of one horizontal wall, in `_get_nearby_segments` append order. -/
def horizWallSegs (px pz : Int) (ot : Option DoorwayKind) : List Seg :=
  let ht := qdiv WALL_THICKNESS 2
  let wz := qmk pz 1
  let xs := qmk px 1
  let xe := qmk (px + PILLAR_SPACING) 1
  let ow : ℚ := match ot with
    | some .hallway => HALLWAY_WIDTH
    | some .doorway => 60
    | none => 0
  if qltb 0 ow then
    let os := qadd xs (qdiv (qsub (qmk PILLAR_SPACING 1) ow) 2)
    let oe := qadd os ow
    [(xs, qsub wz ht, os, qsub wz ht), (xs, qadd wz ht, os, qadd wz ht),
     (oe, qsub wz ht, xe, qsub wz ht), (oe, qadd wz ht, xe, qadd wz ht),
     (os, qsub wz ht, os, qadd wz ht), (oe, qsub wz ht, oe, qadd wz ht)]
  else
    [(xs, qsub wz ht, xe, qsub wz ht), (xs, qadd wz ht, xe, qadd wz ht)]

/-- Segments of one vertical wall, in `_get_nearby_segments` append order. -/
def vertWallSegs (px pz : Int) (ot : Option DoorwayKind) : List Seg :=
  let ht := qdiv WALL_THICKNESS 2
  let wx := qmk px 1
  let zs := qmk pz 1
  let ze := qmk (pz + PILLAR_SPACING) 1
  let ow : ℚ := match ot with
    | some .hallway => HALLWAY_WIDTH
    | some .doorway => 60
    | none => 0
  if qltb 0 ow then
    let os := qadd zs (qdiv (qsub (qmk PILLAR_SPACING 1) ow) 2)
    let oe := qadd os ow
    [(qsub wx ht, zs, qsub wx ht, os), (qadd wx ht, zs, qadd wx ht, os),
     (qsub wx ht, oe, qsub wx ht, ze), (qadd wx ht, oe, qadd wx ht, ze),
     (qsub wx ht, os, qadd wx ht, os), (qsub wx ht, oe, qadd wx ht, oe)]
  else
    [(qsub wx ht, zs, qsub wx ht, ze), (qadd wx ht, zs, qadd wx ht, ze)]

/-- The four sides of a pillar box. -/
def pillarSegs (pillarX pillarZ : Int) : List Seg :=
  let x0 := qmk pillarX 1
  let z0 := qmk pillarZ 1
  let x1 := qadd x0 PILLAR_SIZE
  let z1 := qadd z0 PILLAR_SIZE
  [(x0, z0, x1, z0), (x1, z0, x1, z1), (x1, z1, x0, z1), (x0, z1, x0, z0)]

/-- The segments one grid cell contributes in `_get_nearby_segments`
(horizontal wall, then vertical wall, then pillar), with the world-state
side effects of the underlying queries. -/
def cellSegments (s : WorldState) (px pz : Int) : List Seg × WorldState :=
  let hw := World.hasWallBetween s px pz (px + PILLAR_SPACING) pz
  let s := hw.2
  let hkey := sortKey px pz (px + PILLAR_SPACING) pz
  let l1 : List Seg :=
    if hw.1 && !(decide (hkey ∈ s.destroyedWalls)) then
      horizWallSegs px pz (getDoorwayType s.worldSeed px pz (px + PILLAR_SPACING) pz)
    else []
  let vw := World.hasWallBetween s px pz px (pz + PILLAR_SPACING)
  let s := vw.2
  let vkey := sortKey px pz px (pz + PILLAR_SPACING)
  let l2 : List Seg :=
    if vw.1 && !(decide (vkey ∈ s.destroyedWalls)) then
      vertWallSegs px pz (getDoorwayType s.worldSeed px pz px (pz + PILLAR_SPACING))
    else []
  let offset := Int.fdiv PILLAR_SPACING 2
  let pk : GridPoint := (px + offset, pz + offset)
  let hp := World.hasPillarAt s pk.1 pk.2
  let s := hp.2
  let l3 : List Seg :=
    if hp.1 && !(decide (pk ∈ s.destroyedPillars)) then pillarSegs pk.1 pk.2 else []
  (l1 ++ l2 ++ l3, s)

def gnsCells : WorldState → List GridPoint → List Seg → List Seg × WorldState
  | s, [], acc => (acc, s)
  | s, c :: rest, acc =>
    let p := cellSegments s c.1 c.2
    gnsCells p.2 rest (acc ++ p.1)

/-- `CollisionSystem._get_nearby_segments` (`check_range = PILLAR_SPACING * 2`,
a fixed 800 units). -/
def getNearbySegments (s : WorldState) (x z : ℚ) : List Seg × WorldState :=
  let checkRange := qmk (PILLAR_SPACING * 2) 1
  gnsCells s
    (cellList (gridFloor x checkRange) (gridCeil x checkRange)
      (gridFloor z checkRange) (gridCeil z checkRange)) []

/-- Squared length of a segment. -/
def segLenSq (g : Seg) : ℚ :=
  let dx := qsub g.2.2.1 g.1
  let dz := qsub g.2.2.2 g.2.1
  qadd (qmul dx dx) (qmul dz dz)

/-- The clamped projection parameter `clamp(proj, 0, seg_len) / seg_len`,
rewritten as the exact `clamp(proj·len/len², 0, 1)`. -/
def segT (x z : ℚ) (g : Seg) : ℚ :=
  qmax 0 (qmin 1 (qdiv
    (qadd (qmul (qsub x g.1) (qsub g.2.2.1 g.1)) (qmul (qsub z g.2.1) (qsub g.2.2.2 g.2.1)))
    (segLenSq g)))

/-- Squared distance from `(x, z)` to the closest point of a non-degenerate
segment (the clamped-projection computation of `_distance_to_segment` and
`_resolve_segment_collision`). -/
def distSqToSeg (x z : ℚ) (g : Seg) : ℚ :=
  let dfx := qsub x (qadd g.1 (qmul (qsub g.2.2.1 g.1) (segT x z g)))
  let dfz := qsub z (qadd g.2.1 (qmul (qsub g.2.2.2 g.2.1) (segT x z g)))
  qadd (qmul dfx dfx) (qmul dfz dfz)

/-- `_is_penetrating` on an explicit segment list: some non-degenerate
segment is closer than `radius + skin = 15.5` (a degenerate segment has
distance `inf`, which is never below the threshold). -/
def isPenetratingSegs (x z : ℚ) (segs : List Seg) : Bool :=
  segs.any (fun g =>
    !(qltb (segLenSq g) (qmk 1 1000000)) && qltb (distSqToSeg x z g) (qmk 961 4))

/-- `CollisionSystem._resolve_segment_collision`: push `(x, z)` out of one
segment, or `none` when the segment is degenerate or not penetrated.
`961/4 = 15.5²` and `1/1000000 = 0.001²`. -/
def resolveSegmentCollision (sq : ℚ → ℚ) (x z : ℚ) (g : Seg) : Option (ℚ × ℚ) :=
  if qltb (segLenSq g) (qmk 1 1000000) then none
  else if ¬(qltb (distSqToSeg x z g) (qmul (qmk 31 2) (qmk 31 2))) then none
  else if qltb (qmk 1 1000000) (distSqToSeg x z g) then
    let dist := sq (distSqToSeg x z g)
    let dfx := qsub x (qadd g.1 (qmul (qsub g.2.2.1 g.1) (segT x z g)))
    let dfz := qsub z (qadd g.2.1 (qmul (qsub g.2.2.2 g.2.1) (segT x z g)))
    some (qadd x (qmul (qdiv dfx dist) (qsub (qmk 31 2) dist)),
      qadd z (qmul (qdiv dfz dist) (qsub (qmk 31 2) dist)))
  else
    let segLen := sq (segLenSq g)
    let normalX := qneg (qdiv (qsub g.2.2.2 g.2.1) segLen)
    let normalZ := qdiv (qsub g.2.2.1 g.1) segLen
    let side := qadd (qmul (qsub x g.1) normalX) (qmul (qsub z g.2.1) normalZ)
    if qltb side 0 then
      some (qadd x (qmul (qneg normalX) (qmk 31 2)), qadd z (qmul (qneg normalZ) (qmk 31 2)))
    else
      some (qadd x (qmul normalX (qmk 31 2)), qadd z (qmul normalZ (qmk 31 2)))

/-- `CollisionSystem._depenetrate`: sum the push-out vectors of every
segment penetrated below the bare radius (15, no skin). -/
def depenetrateSegs (sq : ℚ → ℚ) (x z : ℚ) (segs : List Seg) : ℚ × ℚ :=
  let acc := segs.foldl
    (fun (a : ℚ × ℚ × Nat) g =>
      let len2 := segLenSq g
      if qltb len2 (qmk 1 1000000) then a
      else
        let d2 := distSqToSeg x z g
        if qltb d2 (qmk 225 1) then
          let dist := sq d2
          let pen := qsub (qmk 15 1) dist
          if qltb (qmk 1 1000000) d2 then
            let dfx := qsub x (qadd g.1 (qmul (qsub g.2.2.1 g.1) (segT x z g)))
            let dfz := qsub z (qadd g.2.1 (qmul (qsub g.2.2.2 g.2.1) (segT x z g)))
            (qadd a.1 (qmul (qdiv dfx dist) pen), qadd a.2.1 (qmul (qdiv dfz dist) pen), a.2.2 + 1)
          else
            let segLen := sq len2
            let nX := qneg (qdiv (qsub g.2.2.2 g.2.1) segLen)
            let nZ := qdiv (qsub g.2.2.1 g.1) segLen
            let side := qadd (qmul (qsub x g.1) nX) (qmul (qsub z g.2.1) nZ)
            let nX := if qltb side 0 then qneg nX else nX
            let nZ := if qltb side 0 then qneg nZ else nZ
            (qadd a.1 (qmul nX pen), qadd a.2.1 (qmul nZ pen), a.2.2 + 1)
        else a)
    ((0 : ℚ), (0 : ℚ), (0 : Nat))
  if acc.2.2 > 0 then (qadd x acc.1, qadd z acc.2.1) else (x, z)

/-- One iteration of the `resolve_collision` loop: depenetrate if stuck,
query the nearby segments at the (possibly moved) position, and push out of
each penetrated segment in turn. -/
structure PassOut where
  pos : ℚ × ℚ
  state : WorldState
  segs : List Seg
  resolved : Bool
  collided : Bool

/-- One step of the per-pass resolution fold (`for segment in segments`). -/
def resolveStep (sq : ℚ → ℚ) (a : (ℚ × ℚ) × Bool) (g : Seg) : (ℚ × ℚ) × Bool :=
  match resolveSegmentCollision sq a.1.1 a.1.2 g with
  | some p2 => (p2, true)
  | none => a

/-- The per-pass resolution loop over all queried segments. -/
def resolveFold (sq : ℚ → ℚ) (p : ℚ × ℚ) (segs : List Seg) : (ℚ × ℚ) × Bool :=
  segs.foldl (resolveStep sq) (p, false)

def rcPass (sq : ℚ → ℚ) (p0 : ℚ × ℚ) (s0 : WorldState) : PassOut :=
  let q1 := getNearbySegments s0 p0.1 p0.2
  let pen := isPenetratingSegs p0.1 p0.2 q1.1
  let s1 := q1.2
  let q2 := if pen then getNearbySegments s1 p0.1 p0.2 else (q1.1, s1)
  let p1 := if pen then depenetrateSegs sq p0.1 p0.2 q2.1 else p0
  let s2 := q2.2
  let q3 := getNearbySegments s2 p1.1 p1.2
  let r := resolveFold sq p1 q3.1
  ⟨r.1, q3.2, q3.1, r.2, pen || r.2⟩

/-- The result of `resolve_collision`, instrumented with the segment list of
the final executed pass (`lastSegs` — the segments queried at the returned
position) and whether the loop exited through its no-collision break
(`cleanExit`). -/
structure RCOut where
  pos : ℚ × ℚ
  collided : Bool
  state : WorldState
  lastSegs : List Seg
  cleanExit : Bool

def rcLoop (sq : ℚ → ℚ) : Nat → ℚ × ℚ → Bool → WorldState → RCOut
  | 0, p, c, s => ⟨p, c, s, [], false⟩
  | fuel + 1, p, c, s =>
    let po := rcPass sq p s
    let c2 := c || po.collided
    if po.resolved then
      match fuel with
      | 0 => ⟨po.pos, c2, po.state, po.segs, false⟩
      | f + 1 => rcLoop sq (f + 1) po.pos c2 po.state
    else ⟨po.pos, c2, po.state, po.segs, true⟩

/-- `CollisionSystem.resolve_collision` (`max` 3 passes, starting the
candidate position at the requested destination; a displacement below the
`0.001` threshold returns the start position unchanged before any geometry
is consulted). -/
def resolveCollision (sq : ℚ → ℚ) (s : WorldState) (fromP toP : ℚ × ℚ) : RCOut :=
  let mvx := qsub toP.1 fromP.1
  let mvz := qsub toP.2 fromP.2
  let move2 := qadd (qmul mvx mvx) (qmul mvz mvz)
  if qltb move2 (qmk 1 1000000) then ⟨fromP, false, s, [], false⟩
  else rcLoop sq 3 toP false s

/-- The wall/pillar segments lying in the solver's query range of a position:
everything some cell of the `check_range = 800` grid neighbourhood
contributes.  This is the declarative form of `_get_nearby_segments`
used to state the collision-containment claim. -/
def SegWithinQueryRange (s : WorldState) (x z : ℚ) (g : Seg) : Prop :=
  let checkRange := qmk (PILLAR_SPACING * 2) 1
  ∃ px ∈ pyRange400 (gridFloor x checkRange) (gridCeil x checkRange),
    ∃ pz ∈ pyRange400 (gridFloor z checkRange) (gridCeil z checkRange),
      g ∈ (cellSegments s px pz).1

/-! ## `camera.py`: near-plane polygon clipping (`Camera.clip_poly_near`)

Camera-space points are `(x, y, z)` triples; `NEAR = 1`.  Over exact
rationals every value is finite, so the `isfinite` test of the final filter
is identically true and only its `z < NEAR` part remains. -/

abbrev P3 := ℚ × ℚ × ℚ

/-- The `inside` predicate: `p[2] >= NEAR`. -/
def insideNear (p : P3) : Bool := qleb NEAR p.2.2

/-- The `intersect` helper: crossing point of edge `a → b` with the near
plane, `None` for a near-parallel edge (`|dz| < 1e-5`) or a crossing
parameter outside `[-0.001, 1.001]`; the parameter is clamped to `[0, 1]`
and the output `z` is pinned to `NEAR + 0.001`. -/
def intersectNear (a b : P3) : Option P3 :=
  let dz := qsub b.2.2 a.2.2
  if qltb (qabs dz) (qmk 1 100000) then none
  else
    let t := qdiv (qsub NEAR a.2.2) dz
    if qltb t (qneg (qmk 1 1000)) || qltb (qadd 1 (qmk 1 1000)) t then none
    else
      let t := qmax 0 (qmin 1 t)
      some (qadd a.1 (qmul (qsub b.1 a.1) t),
        qadd a.2.1 (qmul (qsub b.2.1 a.2.1) t),
        qadd NEAR (qmk 1 1000))

/-- One edge step of the Sutherland–Hodgman walk. -/
def clipStep (prev cur : P3) : List P3 :=
  match insideNear cur, insideNear prev with
  | true, true => [cur]
  | true, false =>
    (match intersectNear prev cur with
     | some i => [i, cur]
     | none => [cur])
  | false, true =>
    (match intersectNear prev cur with
     | some i => [i]
     | none => [])
  | false, false => []

def clipWalk : P3 → List P3 → List P3
  | _, [] => []
  | prev, c :: rest => clipStep prev c ++ clipWalk c rest

/-- `Camera.clip_poly_near`. -/
def clipPolyNear (poly : List P3) : List P3 :=
  if poly.length < 3 then []
  else
    let out := clipWalk (poly.getLastD (0, 0, 0)) poly
    if out.length < 3 then []
    else if out.any (fun p => qltb p.2.2 NEAR) then []
    else out

/-- 2D cross product. -/
def cross2 (u v : ℚ × ℚ) : ℚ := qsub (qmul u.1 v.2) (qmul u.2 v.1)

def xyProj (p : P3) : ℚ × ℚ := (p.1, p.2.1)

def vsub2 (a b : ℚ × ℚ) : ℚ × ℚ := (qsub a.1 b.1, qsub a.2 b.2)

/-- The cyclic turn cross-products of a vertex list, in the screen-plane
`(x, y)` projection. -/
def turns (l : List P3) : List ℚ :=
  let n := l.length
  (List.range n).map (fun i =>
    let a := xyProj (l.getD (i % n) (0, 0, 0))
    let b := xyProj (l.getD ((i + 1) % n) (0, 0, 0))
    let c := xyProj (l.getD ((i + 2) % n) (0, 0, 0))
    cross2 (vsub2 b a) (vsub2 c b))

/-- Non-strict convexity of a polygon given as its vertex list, read in the
screen-plane projection (the output `z` of clipped vertices is pinned a
fixed epsilon in front of the near plane, so planarity in 3D is not the
meaningful notion): all cyclic turns agree in sign. -/
def ConvexXY (l : List P3) : Prop :=
  (turns l).all (fun t => qleb 0 t) = true ∨ (turns l).all (fun t => qleb t 0) = true

/-- The turn cross-product written in plain field operations, for algebra. -/
def turnQ (a b c : ℚ × ℚ) : ℚ :=
  (b.1 - a.1) * (c.2 - b.2) - (b.2 - a.2) * (c.1 - b.1)

/-! # Claims -/

/-- C10: a `hit_wall` call on a key already in the destroyed set returns
`False` and leaves the entire world state unchanged — no health or state
write, no crack, no debris, no notification (the guard is the first
statement of `hit_wall`). -/
theorem hit_wall_on_destroyed_noop (s : WorldState) (k : WKey) (d : ℚ)
    (h : k ∈ s.destroyedWalls) :
    World.hitWall s k d = (false, s) := by
  simp [World.hitWall, h]

/-- C10 witness. -/
theorem hit_wall_on_destroyed_noop_witness :
    ((0, 0), (400, 0)) ∈ ({ World.init 7 with
        destroyedWalls := [((0, 0), (400, 0))] } : WorldState).destroyedWalls ∧
      World.hitWall { World.init 7 with destroyedWalls := [((0, 0), (400, 0))] }
        ((0, 0), (400, 0)) (qmk 1 4) =
        (false, { World.init 7 with destroyedWalls := [((0, 0), (400, 0))] }) :=
  ⟨List.mem_singleton.2 rfl,
    hit_wall_on_destroyed_noop _ _ _ (List.mem_singleton.2 rfl)⟩

/-- C1: four `hit_wall` calls with `damage = 0.25` on a fresh wall key
(never hit, not pre-damaged, not destroyed) walk the health sequence
`1, 3/4, 1/2, 1/4, 0` and the observed-state sequence
`Intact, Intact, Cracked, Fractured, Destroyed`; the first three calls
return `False`, the fourth returns `True`, and over the four calls exactly
one `WALL_DESTROYED` notification is emitted (the full emission suffix is
`[CRACKED, FRACTURED, DESTROYED]`).  The fixed thresholds behave exactly as
stated on the boundaries: health `3/5` maps to `Cracked` and `1/4` to
`Fractured`. -/
theorem fresh_wall_four_hits (s : WorldState) (k : WKey)
    (hd : k ∉ s.destroyedWalls) (hh : s.wallHealth k = none)
    (hs : s.wallStates k = none) (hp : s.preDamagedWalls k = none) :
    let r1 := World.hitWall s k (qmk 1 4)
    let r2 := World.hitWall r1.2 k (qmk 1 4)
    let r3 := World.hitWall r2.2 k (qmk 1 4)
    let r4 := World.hitWall r3.2 k (qmk 1 4)
    World.getWallHealth s k = 1 ∧
      World.getWallHealth r1.2 k = qmk 3 4 ∧
      World.getWallHealth r2.2 k = qmk 1 2 ∧
      World.getWallHealth r3.2 k = qmk 1 4 ∧
      World.getWallHealth r4.2 k = 0 ∧
      World.getWallState s k = .INTACT ∧
      World.getWallState r1.2 k = .INTACT ∧
      World.getWallState r2.2 k = .CRACKED ∧
      World.getWallState r3.2 k = .FRACTURED ∧
      World.getWallState r4.2 k = .DESTROYED ∧
      r1.1 = false ∧ r2.1 = false ∧ r3.1 = false ∧ r4.1 = true ∧
      r4.2.eventLog = s.eventLog ++ [.WALL_CRACKED, .WALL_FRACTURED, .WALL_DESTROYED] ∧
      r4.2.eventLog.count .WALL_DESTROYED = s.eventLog.count .WALL_DESTROYED + 1 ∧
      thresholdState (qmk 3 5) = .CRACKED ∧ thresholdState (qmk 1 4) = .FRACTURED ∧
      thresholdState 0 = .DESTROYED := by
  have m1 : qmax 0 (qsub 1 (qmk 1 4)) = qmk 3 4 := by decide
  have m2 : qmax 0 (qsub (qmk 3 4) (qmk 1 4)) = qmk 1 2 := by decide
  have m3 : qmax 0 (qsub (qmk 1 2) (qmk 1 4)) = qmk 1 4 := by decide
  have m4 : qmax 0 (qsub (qmk 1 4) (qmk 1 4)) = 0 := by decide
  have t1 : thresholdState (qmk 3 4) = .INTACT := by decide
  have t2 : thresholdState (qmk 1 2) = .CRACKED := by decide
  have t3 : thresholdState (qmk 1 4) = .FRACTURED := by decide
  have t4 : thresholdState (0 : ℚ) = .DESTROYED := by decide
  have t5 : thresholdState (qmk 3 5) = .CRACKED := by decide
  have t6 : thresholdState (qmk 1 4) = .FRACTURED := by decide
  simp [World.hitWall, World.getWallHealth, World.getWallState, hd, hh, hs,
    addCrack, spawnImpactDebris, emitEvent, destroyWallInternal, sinsertW,
    m1, m2, m3, m4, t1, t2, t3, t4, t5, t6, List.count_append]

/-- C1 witness: the four-hit scenario on a fresh world with seed 0. -/
theorem fresh_wall_four_hits_witness :
    (((0, 0), (400, 0)) : WKey) ∉ (World.init 0).destroyedWalls ∧
      (World.init 0).wallHealth ((0, 0), (400, 0)) = none ∧
      (let r1 := World.hitWall (World.init 0) ((0, 0), (400, 0)) (qmk 1 4)
       let r2 := World.hitWall r1.2 ((0, 0), (400, 0)) (qmk 1 4)
       let r3 := World.hitWall r2.2 ((0, 0), (400, 0)) (qmk 1 4)
       let r4 := World.hitWall r3.2 ((0, 0), (400, 0)) (qmk 1 4)
       World.getWallHealth (World.init 0) ((0, 0), (400, 0)) = 1 ∧
         World.getWallHealth r1.2 ((0, 0), (400, 0)) = qmk 3 4 ∧
         World.getWallHealth r2.2 ((0, 0), (400, 0)) = qmk 1 2 ∧
         World.getWallHealth r3.2 ((0, 0), (400, 0)) = qmk 1 4 ∧
         World.getWallHealth r4.2 ((0, 0), (400, 0)) = 0 ∧
         World.getWallState (World.init 0) ((0, 0), (400, 0)) = .INTACT ∧
         World.getWallState r1.2 ((0, 0), (400, 0)) = .INTACT ∧
         World.getWallState r2.2 ((0, 0), (400, 0)) = .CRACKED ∧
         World.getWallState r3.2 ((0, 0), (400, 0)) = .FRACTURED ∧
         World.getWallState r4.2 ((0, 0), (400, 0)) = .DESTROYED ∧
         r1.1 = false ∧ r2.1 = false ∧ r3.1 = false ∧ r4.1 = true ∧
         r4.2.eventLog = (World.init 0).eventLog ++
           [.WALL_CRACKED, .WALL_FRACTURED, .WALL_DESTROYED] ∧
         r4.2.eventLog.count .WALL_DESTROYED =
           (World.init 0).eventLog.count .WALL_DESTROYED + 1 ∧
         thresholdState (qmk 3 5) = .CRACKED ∧ thresholdState (qmk 1 4) = .FRACTURED ∧
         thresholdState 0 = .DESTROYED) :=
  ⟨by simp [World.init], rfl,
    fresh_wall_four_hits (World.init 0) ((0, 0), (400, 0))
      (by simp [World.init]) rfl rfl rfl⟩

/-- C7 counterexample: a repeated hit that leaves a non-destroyed wall's
state `Intact` emits no notification of any kind and spawns no debris
(the `elif old_state != WallState.INTACT` guard excludes exactly this
case), contradicting the claim that every state-preserving hit emits a
minor hit notification with a debris burst. -/
theorem hit_wall_intact_unchanged_silent :
    (let s0 := World.init 0
     let k : WKey := ((0, 0), (400, 0))
     let r1 := World.hitWall s0 k (qmk 1 10)
     let r2 := World.hitWall r1.2 k (qmk 1 10)
     k ∉ r1.2.destroyedWalls ∧
       World.getWallState r1.2 k = .INTACT ∧
       World.getWallState r2.2 k = .INTACT ∧
       r2.1 = false ∧ r2.2.eventLog = [] ∧ r2.2.debrisCount = 0) := by
  decide

/-- Rank of a damage state along `Intact → Cracked → Fractured → Breaking →
Destroyed`. -/
def stateRank : WallState → Nat
  | .INTACT => 0
  | .CRACKED => 1
  | .FRACTURED => 2
  | .BREAKING => 3
  | .DESTROYED => 4

theorem mem_sinsertW_self (k : WKey) (l : List WKey) : k ∈ sinsertW k l := by
  by_cases h : k ∈ l <;> simp [sinsertW, h]

theorem mem_sinsertW_iff (k k2 : WKey) (l : List WKey) :
    k2 ∈ sinsertW k l ↔ k2 = k ∨ k2 ∈ l := by
  by_cases h : k ∈ l
  · simp only [sinsertW, if_pos h]
    constructor
    · exact fun h2 => Or.inr h2
    · rintro (rfl | h2)
      · exact h
      · exact h2
  · simp [sinsertW, if_neg h]

/-- The state-threshold mapping never produces `BREAKING`. -/
theorem thresholdState_ne_BREAKING (h : ℚ) : thresholdState h ≠ .BREAKING := by
  unfold thresholdState
  split_ifs <;> simp

theorem qmax_zero_nonneg (x : ℚ) : 0 ≤ qmax 0 x := by
  rw [qmax_eq]
  exact le_max_left 0 x

theorem thresholdState_destroyed_iff (h : ℚ) :
    thresholdState h = .DESTROYED ↔ h ≤ 0 := by
  unfold thresholdState
  rcases hq : qleb h 0 with _ | _
  · have hn : ¬h ≤ 0 := fun hc => by simp [(qleb_iff h 0).2 hc] at hq
    simp only [hq, Bool.false_eq_true, if_false]
    split_ifs <;> simp [hn]
  · simp [hq, (qleb_iff h 0).1 hq]

/-- Events appended by a `hit_wall` state transition into the given state. -/
def transitionEvents : WallState → List EventTy
  | .CRACKED => [.WALL_CRACKED]
  | .FRACTURED => [.WALL_FRACTURED]
  | .DESTROYED => [.WALL_DESTROYED]
  | _ => []

/-- Debris spawned by a `hit_wall` state transition into the given state
(`destBurst` is the full-destruction burst size for the destroyed count at
hand). -/
def transitionDebris (destBurst : Nat) : WallState → Nat
  | .CRACKED => 30
  | .FRACTURED => 60
  | .DESTROYED => destBurst
  | _ => 0

/-- Crack records added by a `hit_wall` call reaching the given state. -/
def transitionCracks : WallState → Nat
  | .CRACKED => 1
  | .FRACTURED => 3
  | _ => 0

/-- The complete observable behaviour of one `hit_wall` call on a
non-destroyed key whose health and state dicts both hold entries (they are
only ever written together): the call returns `True` iff it transitions
into `Destroyed`; the post health and state read back as the clamped
damaged health `nh` and its threshold state `ns`; the emission log grows by
the transition events (or the minor `WALL_HIT` for a state-preserving hit
on a non-`Intact` wall, and nothing on an `Intact`-preserving hit); debris
and crack counts grow likewise; and the key enters the destroyed set
exactly on a destroying transition. -/
theorem hit_observables_existing (s : WorldState) (k : WKey) (d oh : ℚ) (ost : WallState)
    (hnd : k ∉ s.destroyedWalls)
    (hh : s.wallHealth k = some oh) (hs : s.wallStates k = some ost) :
    World.hitWall s k d =
      ((decide (thresholdState (qmax 0 (qsub oh d)) ≠ ost) &&
          decide (thresholdState (qmax 0 (qsub oh d)) = .DESTROYED)),
        (World.hitWall s k d).2) ∧
      (World.hitWall s k d).2.wallHealth k = some (qmax 0 (qsub oh d)) ∧
      (World.hitWall s k d).2.wallStates k = some (thresholdState (qmax 0 (qsub oh d))) ∧
      World.getWallState (World.hitWall s k d).2 k = thresholdState (qmax 0 (qsub oh d)) ∧
      (k ∈ (World.hitWall s k d).2.destroyedWalls ↔
        thresholdState (qmax 0 (qsub oh d)) = .DESTROYED ∧
          thresholdState (qmax 0 (qsub oh d)) ≠ ost) ∧
      (World.hitWall s k d).2.eventLog = s.eventLog ++
        (if thresholdState (qmax 0 (qsub oh d)) ≠ ost then
          transitionEvents (thresholdState (qmax 0 (qsub oh d)))
         else if ost ≠ .INTACT then [.WALL_HIT] else []) ∧
      (World.hitWall s k d).2.debrisCount = s.debrisCount +
        (if thresholdState (qmax 0 (qsub oh d)) ≠ ost then
          transitionDebris (burstSize (sinsertW k s.destroyedWalls).length)
            (thresholdState (qmax 0 (qsub oh d)))
         else if ost ≠ .INTACT then 20 else 0) ∧
      (World.hitWall s k d).2.wallCracks k = s.wallCracks k +
        transitionCracks (thresholdState (qmax 0 (qsub oh d))) := by
  have hB := thresholdState_ne_BREAKING (qmax 0 (qsub oh d))
  by_cases htr : thresholdState (qmax 0 (qsub oh d)) = ost
  · by_cases hInt : ost = .INTACT
    · simp [World.hitWall, hnd, hh, hs, World.getWallState, htr, hInt,
        transitionCracks, addCrack, spawnImpactDebris, emitEvent]
    · rcases ost with _ | _ | _ | _ | _ <;> try simp at hInt
      all_goals
        simp [World.hitWall, hnd, hh, hs, World.getWallState, htr,
          transitionCracks, transitionEvents, addCrack, spawnImpactDebris, emitEvent]
  · rcases hns : thresholdState (qmax 0 (qsub oh d)) with _ | _ | _ | _ | _
    · simp [World.hitWall, hnd, hh, hs, World.getWallState, hns, htr,
        hns ▸ htr, transitionEvents, transitionDebris, transitionCracks,
        addCrack, spawnImpactDebris, emitEvent]
    · simp [World.hitWall, hnd, hh, hs, World.getWallState, hns, htr,
        hns ▸ htr, transitionEvents, transitionDebris, transitionCracks,
        addCrack, spawnImpactDebris, emitEvent]
    · simp [World.hitWall, hnd, hh, hs, World.getWallState, hns, htr,
        hns ▸ htr, transitionEvents, transitionDebris, transitionCracks,
        addCrack, spawnImpactDebris, emitEvent]
    · exact absurd hns hB
    · have h0 : qmax 0 (qsub oh d) = 0 :=
        le_antisymm ((thresholdState_destroyed_iff _).1 hns) (qmax_zero_nonneg _)
      simp [World.hitWall, hnd, hh, hs, World.getWallState, hns, htr,
        hns ▸ htr, transitionEvents, transitionDebris, transitionCracks,
        addCrack, spawnImpactDebris, emitEvent, destroyWallInternal,
        mem_sinsertW_self, mem_sinsertW_iff]
      exact h0.symm

/-- The analogue of `hit_observables_existing` for a never-hit key: the
first-hit initialization gives it health 1 and state `Intact`, and the call
then behaves as on an existing entry with those values. -/
theorem hit_observables_fresh (s : WorldState) (k : WKey) (d : ℚ)
    (hnd : k ∉ s.destroyedWalls)
    (hh : s.wallHealth k = none) (hs : s.wallStates k = none) :
    World.hitWall s k d =
      ((decide (thresholdState (qmax 0 (qsub 1 d)) ≠ WallState.INTACT) &&
          decide (thresholdState (qmax 0 (qsub 1 d)) = .DESTROYED)),
        (World.hitWall s k d).2) ∧
      (World.hitWall s k d).2.wallHealth k = some (qmax 0 (qsub 1 d)) ∧
      (World.hitWall s k d).2.wallStates k = some (thresholdState (qmax 0 (qsub 1 d))) ∧
      World.getWallState (World.hitWall s k d).2 k = thresholdState (qmax 0 (qsub 1 d)) ∧
      (k ∈ (World.hitWall s k d).2.destroyedWalls ↔
        thresholdState (qmax 0 (qsub 1 d)) = .DESTROYED) ∧
      (World.hitWall s k d).2.eventLog = s.eventLog ++
        (if thresholdState (qmax 0 (qsub 1 d)) ≠ WallState.INTACT then
          transitionEvents (thresholdState (qmax 0 (qsub 1 d)))
         else []) ∧
      (World.hitWall s k d).2.debrisCount = s.debrisCount +
        (if thresholdState (qmax 0 (qsub 1 d)) ≠ WallState.INTACT then
          transitionDebris (burstSize (sinsertW k s.destroyedWalls).length)
            (thresholdState (qmax 0 (qsub 1 d)))
         else 0) ∧
      (World.hitWall s k d).2.wallCracks k = s.wallCracks k +
        transitionCracks (thresholdState (qmax 0 (qsub 1 d))) := by
  have hB := thresholdState_ne_BREAKING (qmax 0 (qsub 1 d))
  rcases hns : thresholdState (qmax 0 (qsub 1 d)) with _ | _ | _ | _ | _
  · simp [World.hitWall, hnd, hh, hs, World.getWallState, hns,
      transitionEvents, transitionDebris, transitionCracks,
      addCrack, spawnImpactDebris, emitEvent]
  · simp [World.hitWall, hnd, hh, hs, World.getWallState, hns,
      transitionEvents, transitionDebris, transitionCracks,
      addCrack, spawnImpactDebris, emitEvent]
  · simp [World.hitWall, hnd, hh, hs, World.getWallState, hns,
      transitionEvents, transitionDebris, transitionCracks,
      addCrack, spawnImpactDebris, emitEvent]
  · exact absurd hns hB
  · have h0 : qmax 0 (qsub 1 d) = 0 :=
      le_antisymm ((thresholdState_destroyed_iff _).1 hns) (qmax_zero_nonneg _)
    simp [World.hitWall, hnd, hh, hs, World.getWallState, hns,
      transitionEvents, transitionDebris, transitionCracks,
      addCrack, spawnImpactDebris, emitEvent, destroyWallInternal,
      mem_sinsertW_self, mem_sinsertW_iff]
    exact h0.symm

/-- C7 (amended): on a non-destroyed key whose health/state dict entries are
consistent (they are only written together), a `hit_wall` call that leaves
the observed damage state unchanged emits the minor `WALL_HIT` notification
and spawns the smaller 20-particle debris burst **only when** that state is
not `Intact`; a state-preserving hit on an `Intact` wall emits nothing and
spawns nothing; and the call returns `True` exactly when it moves the wall
into `Destroyed` (post-state `Destroyed`, pre-state not). -/
theorem hit_wall_unchanged_emission (s : WorldState) (k : WKey) (d : ℚ)
    (hnd : k ∉ s.destroyedWalls)
    (hcons : s.wallHealth k = none ↔ s.wallStates k = none) :
    (World.getWallState (World.hitWall s k d).2 k = World.getWallState s k ∧
        World.getWallState s k ≠ .INTACT →
      (World.hitWall s k d).1 = false ∧
        (World.hitWall s k d).2.eventLog = s.eventLog ++ [.WALL_HIT] ∧
        (World.hitWall s k d).2.debrisCount = s.debrisCount + 20) ∧
    (World.getWallState (World.hitWall s k d).2 k = World.getWallState s k ∧
        World.getWallState s k = .INTACT →
      (World.hitWall s k d).1 = false ∧
        (World.hitWall s k d).2.eventLog = s.eventLog ∧
        (World.hitWall s k d).2.debrisCount = s.debrisCount) ∧
    ((World.hitWall s k d).1 = true ↔
      World.getWallState (World.hitWall s k d).2 k = .DESTROYED ∧
        World.getWallState s k ≠ .DESTROYED) := by
  rcases hh : s.wallHealth k with _ | oh
  · have hs := hcons.1 hh
    have hpre : World.getWallState s k = .INTACT := by
      simp [World.getWallState, hnd, hs]
    obtain ⟨hret, _, _, hpost, _, hlog, hdeb, _⟩ := hit_observables_fresh s k d hnd hh hs
    have hret1 := congrArg Prod.fst hret
    rw [hpre, hpost]
    refine ⟨fun hc => absurd rfl hc.2, fun hc => ?_, ?_⟩
    · have hns : thresholdState (qmax 0 (qsub 1 d)) = .INTACT := hc.1
      refine ⟨?_, ?_, ?_⟩
      · rw [hret1]; simp [hns]
      · rw [hlog]; simp [hns]
      · rw [hdeb]; simp [hns]
    · constructor
      · intro h1
        rw [hret1] at h1
        simp only [Bool.and_eq_true, decide_eq_true_eq] at h1
        exact ⟨h1.2, by simp⟩
      · intro h1
        rw [hret1]
        simp only [Bool.and_eq_true, decide_eq_true_eq]
        exact ⟨by rw [h1.1]; simp, h1.1⟩
  · rcases hst : s.wallStates k with _ | ost
    · exact absurd hh (by rw [hcons.2 hst]; simp)
    have hpre : World.getWallState s k = ost := by
      simp [World.getWallState, hnd, hst]
    obtain ⟨hret, _, _, hpost, _, hlog, hdeb, _⟩ :=
      hit_observables_existing s k d oh ost hnd hh hst
    have hret1 := congrArg Prod.fst hret
    rw [hpre, hpost]
    refine ⟨fun hc => ?_, fun hc => ?_, ?_⟩
    · have hns : thresholdState (qmax 0 (qsub oh d)) = ost := hc.1
      refine ⟨?_, ?_, ?_⟩
      · rw [hret1]; simp [hns]
      · rw [hlog]; simp [hns, hc.2]
      · rw [hdeb]; simp [hns, hc.2]
    · have hns : thresholdState (qmax 0 (qsub oh d)) = ost := hc.1
      refine ⟨?_, ?_, ?_⟩
      · rw [hret1]; simp [hns]
      · rw [hlog]; simp [hns, hc.2]
      · rw [hdeb]; simp [hns, hc.2]
    · constructor
      · intro h1
        rw [hret1] at h1
        simp only [Bool.and_eq_true, decide_eq_true_eq] at h1
        exact ⟨h1.2, fun hc => h1.1 (h1.2.trans hc.symm)⟩
      · intro h1
        rw [hret1]
        simp only [Bool.and_eq_true, decide_eq_true_eq]
        exact ⟨fun hc => h1.2 (hc ▸ h1.1), h1.1⟩

/-- C7 amended witness: a small third hit that keeps a `Cracked` wall
`Cracked` emits exactly one `WALL_HIT` and 20 debris particles. -/
theorem hit_wall_unchanged_emission_witness :
    (let k : WKey := ((0, 0), (400, 0))
     let s2 := (World.hitWall (World.hitWall (World.init 0) k (qmk 1 4)).2 k (qmk 1 4)).2
     k ∉ s2.destroyedWalls ∧ World.getWallState s2 k = .CRACKED ∧
       (World.hitWall s2 k (qmk 1 20)).1 = false ∧
       (World.hitWall s2 k (qmk 1 20)).2.eventLog = s2.eventLog ++ [.WALL_HIT] ∧
       (World.hitWall s2 k (qmk 1 20)).2.debrisCount = s2.debrisCount + 20) := by
  intro k s2
  exact ⟨by decide, by decide,
    (hit_wall_unchanged_emission s2 k (qmk 1 20) (by decide) (by decide)).1
      ⟨by decide, by decide⟩⟩

theorem mem_sinsertP_self (k : GridPoint) (l : List GridPoint) : k ∈ sinsertP k l := by
  by_cases h : k ∈ l <;> simp [sinsertP, h]

/-- The full destruction burst always has at least 250 particles. -/
theorem burstSize_ge (n : Nat) : 250 ≤ burstSize n := by
  unfold burstSize pyMaxInt
  split_ifs with h
  · omega
  · simp

/-- C8: `destroy_wall` and `destroy_pillar` are idempotent.  On a key not
yet destroyed, the first call emits exactly one destroyed notification and
spawns the full (≥ 250 particle) debris burst, after which the key is in
the destroyed set; the second call returns the state entirely unchanged —
no debris, no notification, no state write. -/
theorem destroy_idempotent (s : WorldState) (k : WKey) (pk : GridPoint)
    (hw : k ∉ s.destroyedWalls) (hp : pk ∉ s.destroyedPillars) :
    (World.destroyWall s k).eventLog = s.eventLog ++ [.WALL_DESTROYED] ∧
      s.debrisCount + 250 ≤ (World.destroyWall s k).debrisCount ∧
      k ∈ (World.destroyWall s k).destroyedWalls ∧
      World.destroyWall (World.destroyWall s k) k = World.destroyWall s k ∧
      (World.destroyPillar s pk).eventLog = s.eventLog ++ [.PILLAR_DESTROYED] ∧
      s.debrisCount + 250 ≤ (World.destroyPillar s pk).debrisCount ∧
      pk ∈ (World.destroyPillar s pk).destroyedPillars ∧
      World.destroyPillar (World.destroyPillar s pk) pk = World.destroyPillar s pk := by
  have hmw : k ∈ (World.destroyWall s k).destroyedWalls := by
    simp [World.destroyWall, hw, emitEvent, destroyWallInternal, mem_sinsertW_self]
  have hmp : pk ∈ (World.destroyPillar s pk).destroyedPillars := by
    simp [World.destroyPillar, hp, emitEvent, mem_sinsertP_self]
  refine ⟨?_, ?_, hmw, ?_, ?_, ?_, hmp, ?_⟩
  · simp [World.destroyWall, hw, emitEvent, destroyWallInternal]
  · simp only [World.destroyWall, hw, if_neg, emitEvent, destroyWallInternal]
    simpa using Nat.add_le_add_left (burstSize_ge _) s.debrisCount
  · rw [World.destroyWall]
    simp [hmw]
  · simp [World.destroyPillar, hp, emitEvent]
  · simp only [World.destroyPillar, hp, if_neg, emitEvent]
    simpa using Nat.add_le_add_left (burstSize_ge _) s.debrisCount
  · rw [World.destroyPillar]
    simp [hmp]

/-- C8 witness. -/
theorem destroy_idempotent_witness :
    ((((0, 0), (400, 0)) : WKey) ∉ (World.init 0).destroyedWalls ∧
        ((200, 200) : GridPoint) ∉ (World.init 0).destroyedPillars) ∧
      (World.destroyWall (World.init 0) ((0, 0), (400, 0))).eventLog =
          (World.init 0).eventLog ++ [.WALL_DESTROYED] ∧
      (World.init 0).debrisCount + 250 ≤
          (World.destroyWall (World.init 0) ((0, 0), (400, 0))).debrisCount ∧
      (((0, 0), (400, 0)) : WKey) ∈
          (World.destroyWall (World.init 0) ((0, 0), (400, 0))).destroyedWalls ∧
      World.destroyWall (World.destroyWall (World.init 0) ((0, 0), (400, 0)))
          ((0, 0), (400, 0)) = World.destroyWall (World.init 0) ((0, 0), (400, 0)) ∧
      (World.destroyPillar (World.init 0) (200, 200)).eventLog =
          (World.init 0).eventLog ++ [.PILLAR_DESTROYED] ∧
      (World.init 0).debrisCount + 250 ≤
          (World.destroyPillar (World.init 0) (200, 200)).debrisCount ∧
      ((200, 200) : GridPoint) ∈
          (World.destroyPillar (World.init 0) (200, 200)).destroyedPillars ∧
      World.destroyPillar (World.destroyPillar (World.init 0) (200, 200)) (200, 200) =
          World.destroyPillar (World.init 0) (200, 200) :=
  ⟨⟨by decide, by decide⟩,
    destroy_idempotent (World.init 0) ((0, 0), (400, 0)) (200, 200)
      (by decide) (by decide)⟩

/-- The per-key consistency invariant of the progressive-damage dicts: a
non-destroyed key either has never been hit (no entries) or carries a
health in `(0, 1]` whose threshold state is exactly the stored state.  It
holds in a fresh world and is preserved by every `hit_wall` call, because
the two dicts are only ever written together and a health reaching 0
destroys the wall. -/
def WallInv (s : WorldState) (k : WKey) : Prop :=
  k ∉ s.destroyedWalls →
    (s.wallHealth k = none ∧ s.wallStates k = none) ∨
    (∃ h, s.wallHealth k = some h ∧ 0 < h ∧ h ≤ 1 ∧
      s.wallStates k = some (thresholdState h))

/-- The threshold mapping with propositional comparisons. -/
theorem thresholdState_eq_ite (h : ℚ) :
    thresholdState h =
      if h ≤ 0 then .DESTROYED
      else if h ≤ qmk 1 4 then .FRACTURED
      else if h ≤ qmk 3 5 then .CRACKED
      else .INTACT := by
  unfold thresholdState
  simp [qleb_eq_decide]

/-- Lower health never maps to an earlier damage state. -/
theorem thresholdState_rank_antitone (h1 h2 : ℚ) (hle : h2 ≤ h1) :
    stateRank (thresholdState h1) ≤ stateRank (thresholdState h2) := by
  rw [thresholdState_eq_ite, thresholdState_eq_ite]
  split_ifs <;> simp [stateRank] <;> linarith

theorem wallInv_bounds (s : WorldState) (k : WKey) (hinv : WallInv s k) :
    0 ≤ World.getWallHealth s k ∧ World.getWallHealth s k ≤ 1 := by
  by_cases hk : k ∈ s.destroyedWalls
  · simp [World.getWallHealth, hk]
  · rcases hinv hk with ⟨hh, _⟩ | ⟨h, hh, h0, h1, _⟩ <;>
      simp [World.getWallHealth, hk, hh]
    exact ⟨h0.le, h1⟩

/-- One `hit_wall` call with non-negative damage preserves the invariant,
does not increase the observed health, and does not move the observed state
backwards. -/
theorem hit_step (s : WorldState) (k : WKey) (d : ℚ) (hd : 0 ≤ d)
    (hinv : WallInv s k) :
    WallInv (World.hitWall s k d).2 k ∧
      World.getWallHealth (World.hitWall s k d).2 k ≤ World.getWallHealth s k ∧
      stateRank (World.getWallState s k) ≤
        stateRank (World.getWallState (World.hitWall s k d).2 k) := by
  by_cases hk : k ∈ s.destroyedWalls
  · rw [hit_wall_on_destroyed_noop s k d hk]
    exact ⟨hinv, le_refl _, le_refl _⟩
  · have hpre : World.getWallHealth s k = (s.wallHealth k).getD 1 := by
      simp [World.getWallHealth, hk]
    rcases hinv hk with ⟨hh, hs⟩ | ⟨oh, hh, h0, h1, hs⟩
    · obtain ⟨_, hph, hps, hpost, hmem, _, _, _⟩ := hit_observables_fresh s k d hk hh hs
      have hnh : qmax 0 (qsub 1 d) = max 0 (1 - d) := by rw [qmax_eq, qsub_eq]
      have hble : max 0 (1 - d) ≤ 1 := max_le (by norm_num) (by linarith)
      have hpostH : World.getWallHealth (World.hitWall s k d).2 k = qmax 0 (qsub 1 d) := by
        by_cases hm : k ∈ (World.hitWall s k d).2.destroyedWalls
        · have := (thresholdState_destroyed_iff _).1 (hmem.1 hm)
          have : qmax 0 (qsub 1 d) = 0 := le_antisymm this (qmax_zero_nonneg _)
          simp [World.getWallHealth, hm, this]
        · simp [World.getWallHealth, hm, hph]
      refine ⟨?_, ?_, ?_⟩
      · intro hm
        right
        refine ⟨qmax 0 (qsub 1 d), hph, ?_, ?_, hps⟩
        · have hnd : thresholdState (qmax 0 (qsub 1 d)) ≠ .DESTROYED := fun hc => hm (hmem.2 hc)
          exact not_le.mp fun hle => hnd ((thresholdState_destroyed_iff _).2 hle)
        · rw [hnh]; exact hble
      · rw [hpostH, hpre, hh, Option.getD_none, hnh]; exact hble
      · have hpreS : World.getWallState s k = .INTACT := by
          simp [World.getWallState, hk, hs]
        rw [hpreS, hpost]
        have : WallState.INTACT = thresholdState 1 := by decide
        rw [this, hnh]
        exact thresholdState_rank_antitone 1 (max 0 (1 - d)) hble
    · obtain ⟨_, hph, hps, hpost, hmem, _, _, _⟩ :=
        hit_observables_existing s k d oh (thresholdState oh) hk hh hs
      have hnh : qmax 0 (qsub oh d) = max 0 (oh - d) := by rw [qmax_eq, qsub_eq]
      have hble : max 0 (oh - d) ≤ oh := max_le h0.le (by linarith)
      have hpostH : World.getWallHealth (World.hitWall s k d).2 k = qmax 0 (qsub oh d) := by
        by_cases hm : k ∈ (World.hitWall s k d).2.destroyedWalls
        · have := (thresholdState_destroyed_iff _).1 (hmem.1 hm).1
          have : qmax 0 (qsub oh d) = 0 := le_antisymm this (qmax_zero_nonneg _)
          simp [World.getWallHealth, hm, this]
        · simp [World.getWallHealth, hm, hph]
      refine ⟨?_, ?_, ?_⟩
      · intro hm
        right
        refine ⟨qmax 0 (qsub oh d), hph, ?_, ?_, hps⟩
        · have hnd : thresholdState (qmax 0 (qsub oh d)) ≠ .DESTROYED := by
            intro hc
            by_cases he : thresholdState (qmax 0 (qsub oh d)) = thresholdState oh
            · have hle0 : oh ≤ 0 := (thresholdState_destroyed_iff oh).1 (he.symm.trans hc)
              linarith
            · exact hm (hmem.2 ⟨hc, he⟩)
          exact not_le.mp fun hle => hnd ((thresholdState_destroyed_iff _).2 hle)
        · rw [hnh]; exact hble.trans h1
      · rw [hpostH, hpre, hh, Option.getD_some, hnh]; exact hble
      · have hpreS : World.getWallState s k = thresholdState oh := by
          simp [World.getWallState, hk, hs]
        rw [hpreS, hpost, hnh]
        exact thresholdState_rank_antitone oh (max 0 (oh - d)) hble

/-- The observed-health trace of a `hit_wall` call sequence on one key
(initial value followed by the value after each call). -/
def healthTrace (k : WKey) : WorldState → List ℚ → List ℚ
  | s, [] => [World.getWallHealth s k]
  | s, d :: ds => World.getWallHealth s k :: healthTrace k (World.hitWall s k d).2 ds

/-- The observed-state trace of a `hit_wall` call sequence on one key. -/
def stateTrace (k : WKey) : WorldState → List WallState → List ℚ → List WallState
  | s, _, [] => [World.getWallState s k]
  | s, acc, d :: ds => World.getWallState s k :: stateTrace k (World.hitWall s k d).2 acc ds

theorem healthTrace_head (k : WKey) (s : WorldState) (ds : List ℚ) :
    (healthTrace k s ds).head? = some (World.getWallHealth s k) := by
  cases ds <;> rfl

theorem stateTrace_head (k : WKey) (s : WorldState) (ds : List ℚ) :
    (stateTrace k s [] ds).head? = some (World.getWallState s k) := by
  cases ds <;> rfl

/-- C4: for any fixed wall key in any state satisfying the per-key
consistency invariant (in particular any reachable state, and any fresh
world), a sequence of `hit_wall` calls with non-negative damages keeps the
observed health inside `[0, 1]` and non-increasing from call to call, and
the observed damage state only moves forward along
`Intact → Cracked → Fractured → Destroyed`, never backwards. -/
theorem hit_wall_monotone (s : WorldState) (k : WKey) (ds : List ℚ)
    (hds : ∀ d ∈ ds, 0 ≤ d) (hinv : WallInv s k) :
    List.Chain' (fun a b => b ≤ a) (healthTrace k s ds) ∧
      (∀ h ∈ healthTrace k s ds, 0 ≤ h ∧ h ≤ 1) ∧
      List.Chain' (fun a b => stateRank a ≤ stateRank b) (stateTrace k s [] ds) := by
  induction ds generalizing s with
  | nil =>
    refine ⟨List.chain'_singleton _, ?_, List.chain'_singleton _⟩
    intro h hh
    rcases List.mem_singleton.1 hh with rfl
    exact wallInv_bounds s k hinv
  | cons d ds ih =>
    have hd : 0 ≤ d := hds d (List.mem_cons_self d ds)
    obtain ⟨hinv2, hle, hrk⟩ := hit_step s k d hd hinv
    obtain ⟨ch1, hb, ch2⟩ :=
      ih (World.hitWall s k d).2 (fun e he => hds e (List.mem_cons_of_mem d he)) hinv2
    refine ⟨?_, ?_, ?_⟩
    · rw [healthTrace, List.chain'_cons']
      refine ⟨?_, ch1⟩
      intro b hbh
      rw [healthTrace_head] at hbh
      have h2 : World.getWallHealth (World.hitWall s k d).2 k = b := by simpa using hbh
      rw [← h2]
      exact hle
    · rw [healthTrace]
      intro h hh
      rcases List.mem_cons.1 hh with rfl | hmem
      · exact wallInv_bounds s k hinv
      · exact hb h hmem
    · rw [stateTrace, List.chain'_cons']
      refine ⟨?_, ch2⟩
      intro b hbh
      rw [stateTrace_head] at hbh
      have h2 : World.getWallState (World.hitWall s k d).2 k = b := by simpa using hbh
      rw [← h2]
      exact hrk

/-- C4 witness: three hits (over-destroying on the third) from a fresh
world. -/
theorem hit_wall_monotone_witness :
    (∀ d ∈ [qmk 1 4, qmk 3 10, qmk 2 1], (0 : ℚ) ≤ d) ∧
      (List.Chain' (fun a b => b ≤ a)
          (healthTrace ((0, 0), (400, 0)) (World.init 0) [qmk 1 4, qmk 3 10, qmk 2 1]) ∧
        (∀ h ∈ healthTrace ((0, 0), (400, 0)) (World.init 0) [qmk 1 4, qmk 3 10, qmk 2 1],
          0 ≤ h ∧ h ≤ 1) ∧
        List.Chain' (fun a b => stateRank a ≤ stateRank b)
          (stateTrace ((0, 0), (400, 0)) (World.init 0) [] [qmk 1 4, qmk 3 10, qmk 2 1])) :=
  ⟨by
    intro d hd
    rcases List.mem_cons.1 hd with rfl | hd
    · rw [show (0 : ℚ) ≤ qmk 1 4 ↔ True by simp [(qleb_iff 0 (qmk 1 4)).symm]; decide]
      trivial
    rcases List.mem_cons.1 hd with rfl | hd
    · rw [show (0 : ℚ) ≤ qmk 3 10 ↔ True by simp [(qleb_iff 0 (qmk 3 10)).symm]; decide]
      trivial
    rcases List.mem_cons.1 hd with rfl | hd
    · rw [show (0 : ℚ) ≤ qmk 2 1 ↔ True by simp [(qleb_iff 0 (qmk 2 1)).symm]; decide]
      trivial
    · exact absurd hd (List.not_mem_nil d),
    hit_wall_monotone (World.init 0) ((0, 0), (400, 0)) [qmk 1 4, qmk 3 10, qmk 2 1]
      (by
        intro d hd
        rcases List.mem_cons.1 hd with rfl | hd
        · rw [show (0 : ℚ) ≤ qmk 1 4 ↔ True by simp [(qleb_iff 0 (qmk 1 4)).symm]; decide]
          trivial
        rcases List.mem_cons.1 hd with rfl | hd
        · rw [show (0 : ℚ) ≤ qmk 3 10 ↔ True by simp [(qleb_iff 0 (qmk 3 10)).symm]; decide]
          trivial
        rcases List.mem_cons.1 hd with rfl | hd
        · rw [show (0 : ℚ) ≤ qmk 2 1 ↔ True by simp [(qleb_iff 0 (qmk 2 1)).symm]; decide]
          trivial
        · exact absurd hd (List.not_mem_nil d))
      (fun _ => Or.inl ⟨rfl, rfl⟩)⟩

/-- Every exit path of `has_wall_between` memoizes exactly the value it
returns. -/
theorem wallCacheWrite_spec (key : WKey) (b : Bool) (s : WorldState) :
    (wallCacheWrite key b s).1 = b ∧
      (wallCacheWrite key b s).2.wallCache key = some b := by
  simp [wallCacheWrite]

theorem pillarCacheWrite_spec (key : GridPoint) (b : Bool) (s : WorldState) :
    (pillarCacheWrite key b s).1 = b ∧
      (pillarCacheWrite key b s).2.pillarCache key = some b := by
  simp [pillarCacheWrite]

theorem hasWallBetween_caches (s : WorldState) (x1 z1 x2 z2 : Int) :
    (World.hasWallBetween s x1 z1 x2 z2).2.wallCache (sortKey x1 z1 x2 z2) =
      some (World.hasWallBetween s x1 z1 x2 z2).1 := by
  unfold World.hasWallBetween
  rcases h : s.wallCache (sortKey x1 z1 x2 z2) with _ | b
  · simp only [h]
    split_ifs <;>
      exact ((wallCacheWrite_spec _ _ _).2.trans
        (congrArg some (wallCacheWrite_spec _ _ _).1.symm))
  · simp [h]

/-- Every exit path of `has_pillar_at` memoizes exactly the value it
returns. -/
theorem hasPillarAt_caches (s : WorldState) (px pz : Int) :
    (World.hasPillarAt s px pz).2.pillarCache (px, pz) =
      some (World.hasPillarAt s px pz).1 := by
  unfold World.hasPillarAt
  rcases h : s.pillarCache (px, pz) with _ | b
  · simp only [h]
    split_ifs <;>
      exact ((pillarCacheWrite_spec _ _ _).2.trans
        (congrArg some (pillarCacheWrite_spec _ _ _).1.symm))
  · simp [h]

/-- `get_zone_properties` memoizes exactly the record it returns. -/
theorem getZoneProperties_caches (s : WorldState) (zx zz : Int) :
    (World.getZoneProperties s zx zz).2.zoneCache (zx, zz) =
      some (World.getZoneProperties s zx zz).1 := by
  unfold World.getZoneProperties
  rcases h : s.zoneCache (zx, zz) with _ | p <;> simp [h]

/-- C3: for a fixed seed the four procedural queries are deterministic.
`get_doorway_type` is a pure stateless function of its arguments and the
seed, and each memoized query returns on a repeated call (from the state
the first call produced, in the same run or after the caches were rebuilt)
exactly the value of the first call: the caches are write-once with the
computed value, so memoization never changes an answer.  Determinism
"across process restarts" is the statement that the result is a function
of arguments and seed alone: two worlds freshly built from equal seeds
answer every first query identically, which holds definitionally in this
embedding and is recorded by the last conjunct. -/
theorem queries_deterministic (s : WorldState) (x1 z1 x2 z2 px pz zx zz seed : Int) :
    (World.hasWallBetween (World.hasWallBetween s x1 z1 x2 z2).2 x1 z1 x2 z2).1 =
      (World.hasWallBetween s x1 z1 x2 z2).1 ∧
      (World.hasPillarAt (World.hasPillarAt s px pz).2 px pz).1 =
        (World.hasPillarAt s px pz).1 ∧
      (World.getZoneProperties (World.getZoneProperties s zx zz).2 zx zz).1 =
        (World.getZoneProperties s zx zz).1 ∧
      getDoorwayType seed x1 z1 x2 z2 = getDoorwayType seed x1 z1 x2 z2 ∧
      (World.hasWallBetween (World.init seed) x1 z1 x2 z2).1 =
        (World.hasWallBetween (World.init seed) x1 z1 x2 z2).1 := by
  refine ⟨?_, ?_, ?_, rfl, rfl⟩
  · have h := hasWallBetween_caches s x1 z1 x2 z2
    conv_lhs => rw [World.hasWallBetween]
    rw [h]
  · have h := hasPillarAt_caches s px pz
    conv_lhs => rw [World.hasPillarAt]
    rw [h]
  · have h := getZoneProperties_caches s zx zz
    conv_lhs => rw [World.getZoneProperties]
    rw [h]

/-- C2 (amended): for every wall key whose endpoints are axis-aligned and
pass the owning zone's grid/span validation, and that has not been queried
before, `has_wall_between` returns `True` unconditionally — the archetype's
`wall_chance` plays no part in wall existence (the only randomness on this
path is the decay side effect, which never changes the returned value). -/
theorem has_wall_between_valid_true (s : WorldState) (x1 z1 x2 z2 : Int)
    (hc : s.wallCache (sortKey x1 z1 x2 z2) = none)
    (hax : z1 = z2 ∨ x1 = x2)
    (hgeom : wallGeomOk
      (getRoomSizeAtPosition (qmk (x1 + x2) 2) (qmk (z1 + z2) 2) s).1 x1 z1 x2 z2 = true) :
    (World.hasWallBetween s x1 z1 x2 z2).1 = true := by
  unfold World.hasWallBetween
  simp [hc, hax, hgeom, wallCacheWrite]

/-- C2 amended witness: the wall from `(0,0)` to `(400,0)` in the
`normal`-archetype zone of a seed-0 world. -/
theorem has_wall_between_valid_true_witness :
    (World.init 0).wallCache (sortKey 0 0 400 0) = none ∧
      ((0 : Int) = 0 ∨ (0 : Int) = 400) ∧
      wallGeomOk
        (getRoomSizeAtPosition (qmk (0 + 400) 2) (qmk (0 + 0) 2) (World.init 0)).1
        0 0 400 0 = true ∧
      (World.hasWallBetween (World.init 0) 0 0 400 0).1 = true :=
  ⟨rfl, Or.inl rfl, by decide,
    has_wall_between_valid_true (World.init 0) 0 0 400 0 rfl (Or.inl rfl) (by decide)⟩

set_option maxRecDepth 1000000 in
/-- C2 counterexample: in the seed-0 world, zone `(1, -1)` is a `coliseum`
whose archetype wall probability is 0 (and room size 4000).  Under the
claim, every valid key there is a Bernoulli trial with success probability
0, so `has_wall_between` would have to return `False`; but for the valid
key `(12000,-4000)–(16000,-4000)` (axis-aligned, spanning exactly one
room-size step, never destroyed — its decay roll computes to ≈ 0.9602,
far above the 0.02 coliseum decay chance) the query returns `True`. -/
theorem has_wall_bernoulli_counterexample :
    (World.getZoneProperties (World.init 0) 1 (-1)).1.wallChance = 0 ∧
      (World.getZoneProperties (World.init 0) 1 (-1)).1.wallChance < 1 ∧
      (World.getZoneProperties (World.init 0) 1 (-1)).1.roomSize = 4000 ∧
      getZoneAt (qmk (12000 + 16000) 2) (qmk (-4000 + -4000) 2) = (1, -1) ∧
      wallGeomOk 4000 12000 (-4000) 16000 (-4000) = true ∧
      sortKey 12000 (-4000) 16000 (-4000) ∉
        (World.hasWallBetween (World.init 0) 12000 (-4000) 16000 (-4000)).2.destroyedWalls ∧
      (World.hasWallBetween (World.init 0) 12000 (-4000) 16000 (-4000)).1 = true := by
  refine ⟨by decide, ?_, by decide, by decide, by decide, by decide, by decide⟩
  rw [show (World.getZoneProperties (World.init 0) 1 (-1)).1.wallChance = 0 by decide]
  norm_num

/-- C6: `check_collision` treats any position with a non-finite coordinate
as unconditionally colliding; the `math.isfinite` guard is the first
statement of the function, before any arithmetic, so the call is total and
raises nothing. -/
theorem check_collision_nonfinite (s : WorldState) (x z : PFloat)
    (h : x.isFinite = false ∨ z.isFinite = false) :
    World.checkCollision s x z = (true, s) := by
  unfold World.checkCollision
  rcases h with h | h <;> simp [h]

/-- C6 witness: NaN in either coordinate collides. -/
theorem check_collision_nonfinite_witness :
    (PFloat.nan.isFinite = false ∨ (PFloat.fin 0).isFinite = false) ∧
      World.checkCollision (World.init 0) PFloat.nan (PFloat.fin 0) =
        (true, World.init 0) :=
  ⟨Or.inl rfl,
    check_collision_nonfinite (World.init 0) PFloat.nan (PFloat.fin 0) (Or.inl rfl)⟩

theorem foldl_resolveStep_true (sq : ℚ → ℚ) (segs : List Seg) (a : (ℚ × ℚ) × Bool)
    (h : a.2 = true) : (segs.foldl (resolveStep sq) a).2 = true := by
  induction segs generalizing a with
  | nil => exact h
  | cons g rest ih =>
    rw [List.foldl_cons]
    refine ih _ ?_
    unfold resolveStep
    rcases resolveSegmentCollision sq a.1.1 a.1.2 g with _ | p2
    · exact h
    · rfl

/-- If a resolution pass pushed nothing, the position is unchanged and every
queried segment declined to push it. -/
theorem resolveFold_false (sq : ℚ → ℚ) (p : ℚ × ℚ) (segs : List Seg)
    (h : (resolveFold sq p segs).2 = false) :
    (resolveFold sq p segs).1 = p ∧
      ∀ g ∈ segs, resolveSegmentCollision sq p.1 p.2 g = none := by
  induction segs with
  | nil => exact ⟨rfl, fun g hg => absurd hg (List.not_mem_nil g)⟩
  | cons g rest ih =>
    rcases hr : resolveSegmentCollision sq p.1 p.2 g with _ | p2
    · have hstep : resolveStep sq (p, false) g = (p, false) := by
        unfold resolveStep
        rw [hr]
      rw [resolveFold, List.foldl_cons, hstep] at h ⊢
      obtain ⟨h1, h2⟩ := ih h
      refine ⟨h1, fun g2 hg2 => ?_⟩
      rcases List.mem_cons.1 hg2 with rfl | hg2
      · exact hr
      · exact h2 g2 hg2
    · exfalso
      have hstep : resolveStep sq (p, false) g = (p2, true) := by
        unfold resolveStep
        rw [hr]
      rw [resolveFold, List.foldl_cons, hstep] at h
      rw [foldl_resolveStep_true sq rest (p2, true) rfl] at h
      exact Bool.true_eq_false.mp h

theorem ite_some_ne_none {α : Type} (c : Prop) [Decidable c] (a b : α) :
    (if c then some a else some b) ≠ none := by
  split_ifs <;> simp

/-- A declined segment is degenerate or at (squared) distance at least
`(radius + skin)² = 15.5²`. -/
theorem resolveSegment_none_far (sq : ℚ → ℚ) (x z : ℚ) (g : Seg)
    (h : resolveSegmentCollision sq x z g = none) :
    segLenSq g < qmk 1 1000000 ∨ qmk 961 4 ≤ distSqToSeg x z g := by
  unfold resolveSegmentCollision at h
  by_cases h1 : qltb (segLenSq g) (qmk 1 1000000) = true
  · exact Or.inl ((qltb_iff _ _).1 h1)
  · right
    rw [if_neg (by simpa using h1)] at h
    by_cases h2 : qltb (distSqToSeg x z g) (qmul (qmk 31 2) (qmk 31 2)) = true
    · exfalso
      rw [if_neg (by simpa using h2)] at h
      by_cases h3 : qltb (qmk 1 1000000) (distSqToSeg x z g) = true
      · rw [if_pos h3] at h
        exact Option.some_ne_none _ h
      · rw [if_neg h3] at h
        exact ite_some_ne_none _ _ _ h
    · have h3 : ¬distSqToSeg x z g < qmk 31 2 * qmk 31 2 := fun hc =>
        h2 ((qltb_iff _ _).2 (by rwa [qmul_eq]))
      have : qmk 31 2 * qmk 31 2 = qmk 961 4 := by
        rw [qmk_eq, qmk_eq]
        norm_num
      rw [← this]
      exact not_lt.1 h3

/-- A pass that resolved nothing left its position where it queried, and
every segment of that query is non-penetrated there. -/
theorem rcPass_resolved_false (sq : ℚ → ℚ) (p : ℚ × ℚ) (s : WorldState)
    (h : (rcPass sq p s).resolved = false) :
    ∀ g ∈ (rcPass sq p s).segs,
      resolveSegmentCollision sq (rcPass sq p s).pos.1 (rcPass sq p s).pos.2 g = none := by
  unfold rcPass at h ⊢
  simp only at h ⊢
  obtain ⟨h1, h2⟩ := resolveFold_false sq _ _ h
  rw [h1]
  exact h2

/-- Through the 3-pass loop: a clean (no-collision break) exit reports the
segments of its final query, all non-penetrated at the returned position. -/
theorem rcLoop_clean (sq : ℚ → ℚ) (fuel : Nat) (p : ℚ × ℚ) (c : Bool) (s : WorldState)
    (h : (rcLoop sq fuel p c s).cleanExit = true) :
    ∀ g ∈ (rcLoop sq fuel p c s).lastSegs,
      resolveSegmentCollision sq (rcLoop sq fuel p c s).pos.1
        (rcLoop sq fuel p c s).pos.2 g = none := by
  induction fuel generalizing p c s with
  | zero => simp [rcLoop] at h
  | succ f ih =>
    rcases hres : (rcPass sq p s).resolved with _ | _
    · have he : rcLoop sq (f + 1) p c s =
        ⟨(rcPass sq p s).pos, c || (rcPass sq p s).collided, (rcPass sq p s).state,
          (rcPass sq p s).segs, true⟩ := by
        rw [rcLoop.eq_def]
        simp [hres]
      rw [he]
      exact rcPass_resolved_false sq p s hres
    · rcases f with _ | f2
      · have he : rcLoop sq 1 p c s =
          ⟨(rcPass sq p s).pos, c || (rcPass sq p s).collided, (rcPass sq p s).state,
            (rcPass sq p s).segs, false⟩ := by
          rw [rcLoop.eq_def]
          simp [hres]
        rw [he] at h
        simp at h
      · have he : rcLoop sq (f2 + 1 + 1) p c s =
          rcLoop sq (f2 + 1) (rcPass sq p s).pos (c || (rcPass sq p s).collided)
            (rcPass sq p s).state := by
          rw [rcLoop.eq_def]
          simp [hres]
        rw [he] at h ⊢
        exact ih _ _ _ h

/-- C5 (amended): whenever `resolve_collision` exits through its
no-collision break — the final executed pass pushed against no segment —
every wall/pillar segment it queried at the returned position is either
degenerate or at squared distance at least `(radius + skin)² = 961/4` from
that position, hence at distance at least the player radius 15 (indeed at
least `15.5`); the zero-displacement early return and an exhaustion of all
three passes with a push in the last one carry no such guarantee (see the
counterexample). -/
theorem resolve_collision_clean_exit_far (sq : ℚ → ℚ) (s : WorldState) (a b : ℚ × ℚ)
    (h : (resolveCollision sq s a b).cleanExit = true) :
    ∀ g ∈ (resolveCollision sq s a b).lastSegs,
      segLenSq g < qmk 1 1000000 ∨
        (qmk 961 4 ≤ distSqToSeg (resolveCollision sq s a b).pos.1
            (resolveCollision sq s a b).pos.2 g ∧
          qmk 225 1 ≤ distSqToSeg (resolveCollision sq s a b).pos.1
            (resolveCollision sq s a b).pos.2 g) := by
  have he : resolveCollision sq s a b =
      if qltb (qadd (qmul (qsub b.1 a.1) (qsub b.1 a.1))
          (qmul (qsub b.2 a.2) (qsub b.2 a.2))) (qmk 1 1000000) = true then
        ⟨a, false, s, [], false⟩
      else rcLoop sq 3 b false s := rfl
  rw [he] at h ⊢
  split_ifs at h ⊢ with hmv
  intro g hg
  rcases resolveSegment_none_far sq _ _ g (rcLoop_clean sq 3 b false s h g hg) with hd | hf
  · exact Or.inl hd
  · refine Or.inr ⟨hf, le_trans ?_ hf⟩
    rw [qmk_eq, qmk_eq]
    norm_num

/-- C5 amended witness: in a world state whose caches record no walls and no
pillars anywhere nearby, a short move resolves cleanly and the (empty)
query trivially satisfies the distance bound. -/
theorem resolve_collision_clean_exit_far_witness :
    ((resolveCollision (fun _ => 0)
        { World.init 0 with
          wallCache := fun _ => some false, pillarCache := fun _ => some false }
        (200, 200) (200, 210)).cleanExit = true) ∧
      ∀ g ∈ (resolveCollision (fun _ => 0)
          { World.init 0 with
            wallCache := fun _ => some false, pillarCache := fun _ => some false }
          (200, 200) (200, 210)).lastSegs,
        segLenSq g < qmk 1 1000000 ∨
          (qmk 961 4 ≤ distSqToSeg (resolveCollision (fun _ => 0)
              { World.init 0 with
                wallCache := fun _ => some false, pillarCache := fun _ => some false }
              (200, 200) (200, 210)).pos.1
              (resolveCollision (fun _ => 0)
                { World.init 0 with
                  wallCache := fun _ => some false, pillarCache := fun _ => some false }
                (200, 200) (200, 210)).pos.2 g ∧
            qmk 225 1 ≤ distSqToSeg (resolveCollision (fun _ => 0)
                { World.init 0 with
                  wallCache := fun _ => some false, pillarCache := fun _ => some false }
                (200, 200) (200, 210)).pos.1
                (resolveCollision (fun _ => 0)
                  { World.init 0 with
                    wallCache := fun _ => some false, pillarCache := fun _ => some false }
                  (200, 200) (200, 210)).pos.2 g) :=
  ⟨by decide,
    resolve_collision_clean_exit_far (fun _ => 0)
      { World.init 0 with
        wallCache := fun _ => some false, pillarCache := fun _ => some false }
      (200, 200) (200, 210) (by decide)⟩

set_option maxRecDepth 1000000 in
/-- C5 counterexample: with from-position equal to the requested destination
`(50, 812)` in the fresh seed-0 world, `resolve_collision` returns the
position unchanged through its sub-millimetre-displacement early return —
before consulting any geometry — even though the standing wall
`(0,800)–(400,800)` (decay roll ≈ 0.873, no pre-damage) has its inner face
segment `(0,810)–(400,810)` within the solver's query range at squared
distance 4 (distance 2), far below both the bare radius 15 and the
skin-tolerant `14.5` (`841/4`). -/
theorem resolve_collision_containment_counterexample :
    (resolveCollision (fun _ => 0) (World.init 0) (50, 812) (50, 812)).pos = (50, 812) ∧
      (resolveCollision (fun _ => 0) (World.init 0) (50, 812) (50, 812)).collided = false ∧
      SegWithinQueryRange
        (resolveCollision (fun _ => 0) (World.init 0) (50, 812) (50, 812)).state
        50 812 (0, 810, 400, 810) ∧
      ¬(segLenSq ((0 : ℚ), (810 : ℚ), (400 : ℚ), (810 : ℚ)) < qmk 1 1000000) ∧
      distSqToSeg 50 812 (0, 810, 400, 810) = 4 ∧
      (4 : ℚ) < qmk 841 4 ∧ (4 : ℚ) < qmk 225 1 := by
  refine ⟨by decide, by decide, ?_, ?_, by decide, ?_, ?_⟩
  · exact ⟨0, by decide, 800, by decide, by decide⟩
  · intro hc
    have := (qltb_iff (segLenSq ((0 : ℚ), (810 : ℚ), (400 : ℚ), (810 : ℚ))) (qmk 1 1000000)).2 hc
    rw [show qltb (segLenSq ((0 : ℚ), (810 : ℚ), (400 : ℚ), (810 : ℚ)))
      (qmk 1 1000000) = false by decide] at this
    exact Bool.false_ne_true this
  · rw [qmk_eq]; norm_num
  · rw [qmk_eq]; norm_num

theorem cross2_turnQ (a b c : ℚ × ℚ) :
    cross2 (vsub2 b a) (vsub2 c b) = turnQ a b c := by
  simp [cross2, vsub2, turnQ, qmul_eq, qsub_eq]

theorem turns_one (a : P3) : turns [a] =
    [cross2 (vsub2 (xyProj a) (xyProj a)) (vsub2 (xyProj a) (xyProj a))] := by
  simp [turns, List.range_succ]

theorem turns_two (a b : P3) : turns [a, b] =
    [cross2 (vsub2 (xyProj b) (xyProj a)) (vsub2 (xyProj a) (xyProj b)),
      cross2 (vsub2 (xyProj a) (xyProj b)) (vsub2 (xyProj b) (xyProj a))] := by
  simp [turns, List.range_succ]

theorem turns_three (a b c : P3) : turns [a, b, c] =
    [cross2 (vsub2 (xyProj b) (xyProj a)) (vsub2 (xyProj c) (xyProj b)),
      cross2 (vsub2 (xyProj c) (xyProj b)) (vsub2 (xyProj a) (xyProj c)),
      cross2 (vsub2 (xyProj a) (xyProj c)) (vsub2 (xyProj b) (xyProj a))] := by
  simp [turns, List.range_succ]

theorem turns_four (a b c d : P3) : turns [a, b, c, d] =
    [cross2 (vsub2 (xyProj b) (xyProj a)) (vsub2 (xyProj c) (xyProj b)),
      cross2 (vsub2 (xyProj c) (xyProj b)) (vsub2 (xyProj d) (xyProj c)),
      cross2 (vsub2 (xyProj d) (xyProj c)) (vsub2 (xyProj a) (xyProj d)),
      cross2 (vsub2 (xyProj a) (xyProj d)) (vsub2 (xyProj b) (xyProj a))] := by
  simp [turns, List.range_succ]

theorem turnQ_cyclic (a b c : ℚ × ℚ) : turnQ b c a = turnQ a b c := by
  unfold turnQ
  ring

theorem turnQ_cyclic2 (a b c : ℚ × ℚ) : turnQ c a b = turnQ a b c := by
  unfold turnQ
  ring

theorem turnQ_aaa (a : ℚ × ℚ) : turnQ a a a = 0 := by
  unfold turnQ
  ring

theorem turnQ_aba (a b : ℚ × ℚ) : turnQ a b a = 0 := by
  unfold turnQ
  ring

theorem turnQ_bab (a b : ℚ × ℚ) : turnQ b a b = 0 := by
  unfold turnQ
  ring

/-- Any vertex list with at most three entries is (weakly) sign-consistent:
the empty and one- or two-point lists have only zero turns, and the three
cyclic turns of a triangle are all equal. -/
theorem convexXY_short (l : List P3) (h : l.length ≤ 3) : ConvexXY l := by
  rcases l with _ | ⟨a, _ | ⟨b, _ | ⟨c, _ | ⟨d, rest⟩⟩⟩⟩
  · exact Or.inl rfl
  · refine Or.inl ?_
    rw [turns_one]
    simp only [List.all_cons, List.all_nil, Bool.and_true, cross2_turnQ, turnQ_aaa]
    exact (qleb_iff _ _).2 le_rfl
  · refine Or.inl ?_
    rw [turns_two]
    simp only [List.all_cons, List.all_nil, Bool.and_true, Bool.and_eq_true, cross2_turnQ,
      turnQ_aba, turnQ_bab]
    exact ⟨(qleb_iff _ _).2 le_rfl, (qleb_iff _ _).2 le_rfl⟩
  · have e1 : turnQ (xyProj b) (xyProj c) (xyProj a) =
        turnQ (xyProj a) (xyProj b) (xyProj c) := turnQ_cyclic _ _ _
    have e2 : turnQ (xyProj c) (xyProj a) (xyProj b) =
        turnQ (xyProj a) (xyProj b) (xyProj c) := turnQ_cyclic2 _ _ _
    rcases le_total 0 (turnQ (xyProj a) (xyProj b) (xyProj c)) with hE | hE
    · refine Or.inl ?_
      rw [turns_three]
      simp only [List.all_cons, List.all_nil, Bool.and_true, Bool.and_eq_true, cross2_turnQ]
      exact ⟨(qleb_iff _ _).2 hE, (qleb_iff _ _).2 (by rw [e1]; exact hE),
        (qleb_iff _ _).2 (by rw [e2]; exact hE)⟩
    · refine Or.inr ?_
      rw [turns_three]
      simp only [List.all_cons, List.all_nil, Bool.and_true, Bool.and_eq_true, cross2_turnQ]
      exact ⟨(qleb_iff _ _).2 hE, (qleb_iff _ _).2 (by rw [e1]; exact hE),
        (qleb_iff _ _).2 (by rw [e2]; exact hE)⟩
  · simp only [List.length_cons] at h
    omega

/-- A quadrilateral whose four cyclic turns are nonnegative multiples of a
common value is sign-consistent. -/
theorem convexXY_four_of_coefs (a b c d : P3) (D k0 k1 k2 k3 : ℚ)
    (hk0 : 0 ≤ k0) (hk1 : 0 ≤ k1) (hk2 : 0 ≤ k2) (hk3 : 0 ≤ k3)
    (h0 : turnQ (xyProj a) (xyProj b) (xyProj c) = k0 * D)
    (h1 : turnQ (xyProj b) (xyProj c) (xyProj d) = k1 * D)
    (h2 : turnQ (xyProj c) (xyProj d) (xyProj a) = k2 * D)
    (h3 : turnQ (xyProj d) (xyProj a) (xyProj b) = k3 * D) :
    ConvexXY [a, b, c, d] := by
  rcases le_total 0 D with hD | hD
  · refine Or.inl ?_
    rw [turns_four]
    simp only [List.all_cons, List.all_nil, Bool.and_true, Bool.and_eq_true, cross2_turnQ]
    exact ⟨(qleb_iff _ _).2 (h0 ▸ mul_nonneg hk0 hD),
      (qleb_iff _ _).2 (h1 ▸ mul_nonneg hk1 hD),
      (qleb_iff _ _).2 (h2 ▸ mul_nonneg hk2 hD),
      (qleb_iff _ _).2 (h3 ▸ mul_nonneg hk3 hD)⟩
  · refine Or.inr ?_
    rw [turns_four]
    simp only [List.all_cons, List.all_nil, Bool.and_true, Bool.and_eq_true, cross2_turnQ]
    exact ⟨(qleb_iff _ _).2 (h0 ▸ mul_nonpos_iff.2 (Or.inl ⟨hk0, hD⟩)),
      (qleb_iff _ _).2 (h1 ▸ mul_nonpos_iff.2 (Or.inl ⟨hk1, hD⟩)),
      (qleb_iff _ _).2 (h2 ▸ mul_nonpos_iff.2 (Or.inl ⟨hk2, hD⟩)),
      (qleb_iff _ _).2 (h3 ▸ mul_nonpos_iff.2 (Or.inl ⟨hk3, hD⟩))⟩

/-- A successful near-plane intersection lies on the edge `a → b` (in the
screen-plane coordinates) at a clamped parameter in `[0, 1]`. -/
theorem intersectNear_some_param (a b i : P3) (h : intersectNear a b = some i) :
    ∃ r : ℚ, 0 ≤ r ∧ r ≤ 1 ∧
      i.1 = a.1 + (b.1 - a.1) * r ∧ i.2.1 = a.2.1 + (b.2.1 - a.2.1) * r := by
  have he : intersectNear a b =
      if qltb (qabs (qsub b.2.2 a.2.2)) (qmk 1 100000) = true then none
      else if (qltb (qdiv (qsub NEAR a.2.2) (qsub b.2.2 a.2.2)) (qneg (qmk 1 1000)) ||
          qltb (qadd 1 (qmk 1 1000)) (qdiv (qsub NEAR a.2.2) (qsub b.2.2 a.2.2))) = true then
        none
      else
        some (qadd a.1 (qmul (qsub b.1 a.1)
            (qmax 0 (qmin 1 (qdiv (qsub NEAR a.2.2) (qsub b.2.2 a.2.2))))),
          qadd a.2.1 (qmul (qsub b.2.1 a.2.1)
            (qmax 0 (qmin 1 (qdiv (qsub NEAR a.2.2) (qsub b.2.2 a.2.2))))),
          qadd NEAR (qmk 1 1000)) := rfl
  rw [he] at h
  split_ifs at h
  have hX := Option.some.inj h
  refine ⟨qmax 0 (qmin 1 (qdiv (qsub NEAR a.2.2) (qsub b.2.2 a.2.2))), ?_, ?_, ?_, ?_⟩
  · rw [qmax_eq]
    exact le_max_left 0 _
  · rw [qmax_eq, qmin_eq]
    exact max_le (by norm_num) (min_le_left 1 _)
  · rw [← hX]
    simp [qadd_eq, qmul_eq, qsub_eq]
  · rw [← hX]
    simp [qadd_eq, qmul_eq, qsub_eq]

/-- The clipped quadrilateral with the first input vertex outside: entry
intersection on the closing edge, exit intersection on the first edge. -/
theorem quad_convex_A (u v w ip iq : P3) (s t : ℚ)
    (hs0 : 0 ≤ s) (hs1 : s ≤ 1) (ht0 : 0 ≤ t) (ht1 : t ≤ 1)
    (hip1 : ip.1 = w.1 + (u.1 - w.1) * s) (hip2 : ip.2.1 = w.2.1 + (u.2.1 - w.2.1) * s)
    (hiq1 : iq.1 = u.1 + (v.1 - u.1) * t) (hiq2 : iq.2.1 = u.2.1 + (v.2.1 - u.2.1) * t) :
    ConvexXY [ip, iq, v, w] := by
  refine convexXY_four_of_coefs ip iq v w
    (turnQ (xyProj u) (xyProj v) (xyProj w))
    ((1 - s) * (1 - t)) (1 - t) s (s * t)
    (mul_nonneg (by linarith) (by linarith)) (by linarith) hs0 (mul_nonneg hs0 ht0)
    ?_ ?_ ?_ ?_ <;>
  · simp only [turnQ, xyProj]
    simp only [hip1, hip2, hiq1, hiq2]
    ring

/-- The clipped quadrilateral with the second input vertex outside. -/
theorem quad_convex_B (u v w iq ir : P3) (s t : ℚ)
    (hs0 : 0 ≤ s) (hs1 : s ≤ 1) (ht0 : 0 ≤ t) (ht1 : t ≤ 1)
    (hiq1 : iq.1 = u.1 + (v.1 - u.1) * s) (hiq2 : iq.2.1 = u.2.1 + (v.2.1 - u.2.1) * s)
    (hir1 : ir.1 = v.1 + (w.1 - v.1) * t) (hir2 : ir.2.1 = v.2.1 + (w.2.1 - v.2.1) * t) :
    ConvexXY [u, iq, ir, w] := by
  refine convexXY_four_of_coefs u iq ir w
    (turnQ (xyProj u) (xyProj v) (xyProj w))
    (s * t) ((1 - s) * (1 - t)) (1 - t) s
    (mul_nonneg hs0 ht0) (mul_nonneg (by linarith) (by linarith)) (by linarith) hs0
    ?_ ?_ ?_ ?_ <;>
  · simp only [turnQ, xyProj]
    simp only [hiq1, hiq2, hir1, hir2]
    ring

/-- The clipped quadrilateral with the third input vertex outside. -/
theorem quad_convex_C (u v w ip ir : P3) (s t : ℚ)
    (hs0 : 0 ≤ s) (hs1 : s ≤ 1) (ht0 : 0 ≤ t) (ht1 : t ≤ 1)
    (hip1 : ip.1 = w.1 + (u.1 - w.1) * s) (hip2 : ip.2.1 = w.2.1 + (u.2.1 - w.2.1) * s)
    (hir1 : ir.1 = v.1 + (w.1 - v.1) * t) (hir2 : ir.2.1 = v.2.1 + (w.2.1 - v.2.1) * t) :
    ConvexXY [ip, u, v, ir] := by
  refine convexXY_four_of_coefs ip u v ir
    (turnQ (xyProj u) (xyProj v) (xyProj w))
    (1 - s) t (s * t) ((1 - s) * (1 - t))
    (by linarith) ht0 (mul_nonneg hs0 ht0) (mul_nonneg (by linarith) (by linarith))
    ?_ ?_ ?_ ?_ <;>
  · simp only [turnQ, xyProj]
    simp only [hip1, hip2, hir1, hir2]
    ring

/-- The Sutherland–Hodgman walk over a triangle always emits a
sign-consistent vertex list. -/
theorem walk_convex (p0 p1 p2 : P3) :
    ConvexXY (clipStep p2 p0 ++ (clipStep p0 p1 ++ clipStep p1 p2)) := by
  rcases h0 : insideNear p0 with _ | _ <;> rcases h1 : insideNear p1 with _ | _ <;>
    rcases h2 : insideNear p2 with _ | _
  · simp only [clipStep, h0, h1, h2]
    exact Or.inl rfl
  · rcases hA : intersectNear p2 p0 with _ | ip <;> rcases hB : intersectNear p1 p2 with _ | ir <;>
      · simp only [clipStep, h0, h1, h2, hA, hB, List.nil_append, List.cons_append,
          List.append_nil]
        exact convexXY_short _ (by simp)
  · rcases hA : intersectNear p0 p1 with _ | iq <;> rcases hB : intersectNear p1 p2 with _ | ir <;>
      · simp only [clipStep, h0, h1, h2, hA, hB, List.nil_append, List.cons_append,
          List.append_nil]
        exact convexXY_short _ (by simp)
  · rcases hA : intersectNear p2 p0 with _ | ip <;> rcases hB : intersectNear p0 p1 with _ | iq
    · simp only [clipStep, h0, h1, h2, hA, hB, List.nil_append, List.cons_append,
        List.append_nil]
      exact convexXY_short _ (by simp)
    · simp only [clipStep, h0, h1, h2, hA, hB, List.nil_append, List.cons_append,
        List.append_nil]
      exact convexXY_short _ (by simp)
    · simp only [clipStep, h0, h1, h2, hA, hB, List.nil_append, List.cons_append,
        List.append_nil]
      exact convexXY_short _ (by simp)
    · simp only [clipStep, h0, h1, h2, hA, hB, List.nil_append, List.cons_append,
        List.append_nil]
      obtain ⟨s, hs0, hs1, hip1, hip2⟩ := intersectNear_some_param p2 p0 ip hA
      obtain ⟨t, ht0, ht1, hiq1, hiq2⟩ := intersectNear_some_param p0 p1 iq hB
      exact quad_convex_A p0 p1 p2 ip iq s t hs0 hs1 ht0 ht1 hip1 hip2 hiq1 hiq2
  · rcases hA : intersectNear p2 p0 with _ | ip <;> rcases hB : intersectNear p0 p1 with _ | iq <;>
      · simp only [clipStep, h0, h1, h2, hA, hB, List.nil_append, List.cons_append,
          List.append_nil]
        exact convexXY_short _ (by simp)
  · rcases hA : intersectNear p0 p1 with _ | iq <;> rcases hB : intersectNear p1 p2 with _ | ir
    · simp only [clipStep, h0, h1, h2, hA, hB, List.nil_append, List.cons_append,
        List.append_nil]
      exact convexXY_short _ (by simp)
    · simp only [clipStep, h0, h1, h2, hA, hB, List.nil_append, List.cons_append,
        List.append_nil]
      exact convexXY_short _ (by simp)
    · simp only [clipStep, h0, h1, h2, hA, hB, List.nil_append, List.cons_append,
        List.append_nil]
      exact convexXY_short _ (by simp)
    · simp only [clipStep, h0, h1, h2, hA, hB, List.nil_append, List.cons_append,
        List.append_nil]
      obtain ⟨s, hs0, hs1, hiq1, hiq2⟩ := intersectNear_some_param p0 p1 iq hA
      obtain ⟨t, ht0, ht1, hir1, hir2⟩ := intersectNear_some_param p1 p2 ir hB
      exact quad_convex_B p0 p1 p2 iq ir s t hs0 hs1 ht0 ht1 hiq1 hiq2 hir1 hir2
  · rcases hA : intersectNear p2 p0 with _ | ip <;> rcases hB : intersectNear p1 p2 with _ | ir
    · simp only [clipStep, h0, h1, h2, hA, hB, List.nil_append, List.cons_append,
        List.append_nil]
      exact convexXY_short _ (by simp)
    · simp only [clipStep, h0, h1, h2, hA, hB, List.nil_append, List.cons_append,
        List.append_nil]
      exact convexXY_short _ (by simp)
    · simp only [clipStep, h0, h1, h2, hA, hB, List.nil_append, List.cons_append,
        List.append_nil]
      exact convexXY_short _ (by simp)
    · simp only [clipStep, h0, h1, h2, hA, hB, List.nil_append, List.cons_append,
        List.append_nil]
      obtain ⟨s, hs0, hs1, hip1, hip2⟩ := intersectNear_some_param p2 p0 ip hA
      obtain ⟨t, ht0, ht1, hir1, hir2⟩ := intersectNear_some_param p1 p2 ir hB
      exact quad_convex_C p0 p1 p2 ip ir s t hs0 hs1 ht0 ht1 hip1 hip2 hir1 hir2
  · simp only [clipStep, h0, h1, h2, List.nil_append, List.cons_append, List.append_nil]
    exact convexXY_short _ (by simp)

/-- `clip_poly_near` on a triangle either drops everything or returns
exactly the Sutherland–Hodgman walk output. -/
theorem clipPolyNear_tri_eq (p0 p1 p2 : P3) :
    clipPolyNear [p0, p1, p2] = [] ∨
      clipPolyNear [p0, p1, p2] = clipStep p2 p0 ++ (clipStep p0 p1 ++ clipStep p1 p2) := by
  have hw : clipWalk p2 [p0, p1, p2] =
      clipStep p2 p0 ++ (clipStep p0 p1 ++ clipStep p1 p2) := by
    simp [clipWalk]
  have he : clipPolyNear [p0, p1, p2] =
      if (clipWalk p2 [p0, p1, p2]).length < 3 then []
      else if (clipWalk p2 [p0, p1, p2]).any (fun p => qltb p.2.2 NEAR) = true then []
      else clipWalk p2 [p0, p1, p2] := rfl
  rw [he, hw]
  split_ifs
  · exact Or.inl rfl
  · exact Or.inl rfl
  · exact Or.inr rfl

theorem clipPolyNear_z_ge (poly : List P3) :
    ∀ p ∈ clipPolyNear poly, NEAR ≤ p.2.2 := by
  intro p hp
  have he : clipPolyNear poly =
      if poly.length < 3 then []
      else if (clipWalk (poly.getLastD (0, 0, 0)) poly).length < 3 then []
      else if (clipWalk (poly.getLastD (0, 0, 0)) poly).any
          (fun p => qltb p.2.2 NEAR) = true then []
      else clipWalk (poly.getLastD (0, 0, 0)) poly := rfl
  rw [he] at hp
  split_ifs at hp with hl1 hl2 hany
  · exact absurd hp (List.not_mem_nil p)
  · exact absurd hp (List.not_mem_nil p)
  · exact absurd hp (List.not_mem_nil p)
  · by_contra hlt
    exact hany (List.any_eq_true.2 ⟨p, hp, (qltb_iff _ _).2 (lt_of_not_le hlt)⟩)

theorem clipPolyNear_empty_or_big (poly : List P3) :
    clipPolyNear poly = [] ∨ 3 ≤ (clipPolyNear poly).length := by
  have he : clipPolyNear poly =
      if poly.length < 3 then []
      else if (clipWalk (poly.getLastD (0, 0, 0)) poly).length < 3 then []
      else if (clipWalk (poly.getLastD (0, 0, 0)) poly).any
          (fun p => qltb p.2.2 NEAR) = true then []
      else clipWalk (poly.getLastD (0, 0, 0)) poly := rfl
  rw [he]
  split_ifs with hl1 hl2 hany
  · exact Or.inl rfl
  · exact Or.inl rfl
  · exact Or.inl rfl
  · exact Or.inr (by omega)

theorem clip_tri_behind (p0 p1 p2 : P3)
    (h0 : insideNear p0 = false) (h1 : insideNear p1 = false)
    (h2 : insideNear p2 = false) : clipPolyNear [p0, p1, p2] = [] := by
  have hw : clipWalk p2 [p0, p1, p2] = [] := by
    simp [clipWalk, clipStep, h0, h1, h2]
  have he : clipPolyNear [p0, p1, p2] =
      if (clipWalk p2 [p0, p1, p2]).length < 3 then []
      else if (clipWalk p2 [p0, p1, p2]).any (fun p => qltb p.2.2 NEAR) = true then []
      else clipWalk p2 [p0, p1, p2] := rfl
  rw [he, hw]
  simp

/-- C9: `clip_poly_near` on any triangle (in particular one straddling the
near plane) returns a sign-consistent — weakly convex — vertex list in the
screen-plane projection, every returned vertex has `z ≥ NEAR` (the clipped
vertices are in fact pinned at `NEAR + 0.001`), a triangle with all three
vertices behind the near plane clips to the empty result, and any result
of fewer than 3 vertices is dropped to the empty result. -/
theorem clip_poly_near_triangle_correct (p0 p1 p2 : P3) :
    ConvexXY (clipPolyNear [p0, p1, p2]) ∧
      (∀ p ∈ clipPolyNear [p0, p1, p2], NEAR ≤ p.2.2) ∧
      ((insideNear p0 = false ∧ insideNear p1 = false ∧ insideNear p2 = false) →
        clipPolyNear [p0, p1, p2] = []) ∧
      (clipPolyNear [p0, p1, p2] = [] ∨ 3 ≤ (clipPolyNear [p0, p1, p2]).length) := by
  refine ⟨?_, clipPolyNear_z_ge _, fun hb => clip_tri_behind p0 p1 p2 hb.1 hb.2.1 hb.2.2,
    clipPolyNear_empty_or_big _⟩
  rcases clipPolyNear_tri_eq p0 p1 p2 with he | he
  · rw [he]
    exact Or.inl rfl
  · rw [he]
    exact walk_convex p0 p1 p2

/-- C9 witness: a triangle straddling the near plane is clipped to a
sign-consistent list with all `z ≥ NEAR`, and a triangle fully behind the
plane clips to the empty list. -/
theorem clip_poly_near_triangle_correct_witness :
    ConvexXY (clipPolyNear [((0 : ℚ), (0 : ℚ), (0 : ℚ)), ((10 : ℚ), (0 : ℚ), (2 : ℚ)),
        ((0 : ℚ), (10 : ℚ), (2 : ℚ))]) ∧
      clipPolyNear [((0 : ℚ), (0 : ℚ), (0 : ℚ)), ((1 : ℚ), (0 : ℚ), (0 : ℚ)),
        ((0 : ℚ), (1 : ℚ), (0 : ℚ))] = [] :=
  ⟨(clip_poly_near_triangle_correct ((0 : ℚ), (0 : ℚ), (0 : ℚ)) ((10 : ℚ), (0 : ℚ), (2 : ℚ))
      ((0 : ℚ), (10 : ℚ), (2 : ℚ))).1,
    (clip_poly_near_triangle_correct ((0 : ℚ), (0 : ℚ), (0 : ℚ)) ((1 : ℚ), (0 : ℚ), (0 : ℚ))
      ((0 : ℚ), (1 : ℚ), (0 : ℚ))).2.2.1 ⟨by decide, by decide, by decide⟩⟩

end SoundHell
